import Mathlib

/-!
Shallow embedding of the desti marketplace transaction engine.

The repository is a Next.js app whose mutating API routes drive a Prisma
store.  Each route handler is translated here as a pure function from a
database snapshot (`DB`) to a response plus a new snapshot.  A Prisma
`$transaction` whose callback throws rolls the whole unit back, so every
error path of a handler returns the input snapshot unchanged.  Unique
constraints of the store (the idempotency triple, the partial index on
non-terminal offers, the partial index on CONFIRMED bookings) are
modelled as explicit membership checks at the point of the corresponding
insert, mirroring the P2002 catch blocks of the routes.

Identifiers, user ids and idempotency keys are `Nat`; timestamps, seat
counts and prices are `Int` (the store's INTEGER/TIMESTAMP columns).
String fields (origin/destination text, messages, instructions) and the
clock-skew/window validation on them are not part of any claim and are
elided; the numeric validation bounds of the route bodies (seats 1..8,
price >= 0, earliest < latest) are kept.
-/

namespace Desti

inductive RideStatus where
  | ACTIVE
  | CANCELLED
  deriving DecidableEq, Repr

inductive TRStatus where
  | ACTIVE
  | CLOSED
  | CANCELLED
  deriving DecidableEq, Repr

inductive OfferStatus where
  | PENDING
  | ACCEPTED
  | CANCELLED
  deriving DecidableEq, Repr

inductive BookingStatus where
  | CONFIRMED
  | CANCELLED
  deriving DecidableEq, Repr

inductive EntityType where
  | RIDE
  | TRIP_REQUEST
  | OFFER
  | BOOKING
  deriving DecidableEq, Repr

/-- Row of the `rides` table (fields used by the core). -/
structure Ride where
  id : Nat
  driverUserId : Nat
  earliestDepartAt : Int
  latestDepartAt : Int
  priceCents : Int
  seatsTotal : Int
  seatsAvailable : Int
  status : RideStatus
  deriving DecidableEq, Repr

/-- Row of the `trip_requests` table. -/
structure TripRequest where
  id : Nat
  riderUserId : Nat
  earliestDesiredAt : Int
  latestDesiredAt : Int
  seatsNeeded : Int
  status : TRStatus
  deriving DecidableEq, Repr

/-- Row of the `offers` table. -/
structure Offer where
  id : Nat
  tripRequestId : Nat
  driverUserId : Nat
  riderUserId : Nat
  seatsOffered : Int
  priceCents : Int
  status : OfferStatus
  deriving DecidableEq, Repr

/-- Row of the `bookings` table: either `rideId` is set (direct flow) or
`tripRequestId`/`driverUserId` are (matched flow). -/
structure Booking where
  id : Nat
  rideId : Option Nat
  tripRequestId : Option Nat
  driverUserId : Option Nat
  riderUserId : Nat
  seatsBooked : Int
  priceCents : Option Int
  status : BookingStatus
  deriving DecidableEq, Repr

/-- Row of the `idempotency_keys` table; at most one entity reference is
set, matching `entityType`. -/
structure IdemRecord where
  id : Nat
  userId : Nat
  key : Nat
  entityType : EntityType
  rideId : Option Nat
  tripRequestId : Option Nat
  offerId : Option Nat
  bookingId : Option Nat
  deriving DecidableEq, Repr

/-- A snapshot of the relational store.  `nextId` supplies fresh row ids. -/
structure DB where
  rides : List Ride
  tripRequests : List TripRequest
  offers : List Offer
  bookings : List Booking
  idemKeys : List IdemRecord
  nextId : Nat
  deriving DecidableEq, Repr

-- ── Lookup helpers (Prisma findUnique / findFirst) ─────────────────────

def findRide (db : DB) (i : Nat) : Option Ride :=
  db.rides.find? (fun r => decide (r.id = i))

def findTR (db : DB) (i : Nat) : Option TripRequest :=
  db.tripRequests.find? (fun t => decide (t.id = i))

def findOffer (db : DB) (i : Nat) : Option Offer :=
  db.offers.find? (fun o => decide (o.id = i))

def findBooking (db : DB) (i : Nat) : Option Booking :=
  db.bookings.find? (fun b => decide (b.id = i))

def findIdemL (ks : List IdemRecord) (u k : Nat) (t : EntityType) : Option IdemRecord :=
  ks.find? (fun rec => decide (rec.userId = u ∧ rec.key = k ∧ rec.entityType = t))

/-- Lookup on the unique triple (userId, idempotencyKey, entityType). -/
def findIdem (db : DB) (u k : Nat) (t : EntityType) : Option IdemRecord :=
  findIdemL db.idemKeys u k t

/-- Whether an idempotency row with the given triple exists (the unique
constraint consulted by the modelled insert). -/
def hasIdem (db : DB) (u k : Nat) (t : EntityType) : Bool :=
  (findIdem db u k t).isSome

-- ── Row update helpers (Prisma update / updateMany by id) ──────────────

def offerStatusUpd (oid : Nat) (st : OfferStatus) (o : Offer) : Offer :=
  if o.id = oid then { o with status := st } else o

def setOfferStatus (os : List Offer) (oid : Nat) (st : OfferStatus) : List Offer :=
  os.map (offerStatusUpd oid st)

def trStatusUpd (trId : Nat) (st : TRStatus) (t : TripRequest) : TripRequest :=
  if t.id = trId then { t with status := st } else t

def setTRStatus (ts : List TripRequest) (trId : Nat) (st : TRStatus) : List TripRequest :=
  ts.map (trStatusUpd trId st)

def bookingStatusUpd (bid : Nat) (st : BookingStatus) (b : Booking) : Booking :=
  if b.id = bid then { b with status := st } else b

def setBookingStatus (bs : List Booking) (bid : Nat) (st : BookingStatus) : List Booking :=
  bs.map (bookingStatusUpd bid st)

-- ── POST /api/offers/:offerId/accept ───────────────────────────────────

/-- Response of the accept-offer route: HTTP code plus the returned
offer/booking payload. -/
structure AcceptResp where
  code : Nat
  offer : Option Offer
  booking : Option Booking
  deriving DecidableEq, Repr

/-- Step 10 of the accept transaction: `updateMany` cancelling every
other PENDING offer on the same trip request. -/
def loserUpd (trId oid : Nat) (o : Offer) : Offer :=
  if o.tripRequestId = trId ∧ o.status = OfferStatus.PENDING ∧ o.id ≠ oid then
    { o with status := OfferStatus.CANCELLED }
  else o

def cancelLosers (os : List Offer) (trId oid : Nat) : List Offer :=
  os.map (loserUpd trId oid)

/-- POST /api/offers/:offerId/accept.  Guards and effects run inside one
Prisma transaction; a thrown guard rolls everything back, so every
non-200 branch leaves the snapshot unchanged. -/
def acceptOffer (db : DB) (actor oid : Nat) : AcceptResp × DB :=
  match findOffer db oid with
  | none => (⟨404, none, none⟩, db)
  | some o =>
    match findTR db o.tripRequestId with
    | none => (⟨500, none, none⟩, db)
    | some tr =>
      if tr.riderUserId ≠ actor then (⟨403, none, none⟩, db)
      else if o.status ≠ OfferStatus.PENDING then (⟨409, none, none⟩, db)
      else if tr.status ≠ TRStatus.ACTIVE then (⟨409, none, none⟩, db)
      else if db.offers.any
          (fun o2 => decide (o2.tripRequestId = o.tripRequestId ∧
                             o2.status = OfferStatus.ACCEPTED)) then
        (⟨409, none, none⟩, db)
      else
        let bk : Booking :=
          { id := db.nextId
            rideId := none
            tripRequestId := some o.tripRequestId
            driverUserId := some o.driverUserId
            riderUserId := o.riderUserId
            seatsBooked := o.seatsOffered
            priceCents := some o.priceCents
            status := BookingStatus.CONFIRMED }
        (⟨200, some { o with status := OfferStatus.ACCEPTED }, some bk⟩,
         { db with
             offers := cancelLosers (setOfferStatus db.offers oid OfferStatus.ACCEPTED)
                         o.tripRequestId oid
             bookings := db.bookings ++ [bk]
             tripRequests := setTRStatus db.tripRequests o.tripRequestId TRStatus.CLOSED
             nextId := db.nextId + 1 })

-- ── POST /api/offers/:offerId/cancel ───────────────────────────────────

structure OfferResp where
  code : Nat
  body : Option Offer
  deriving DecidableEq, Repr

/-- Transaction step of offer cancellation on a formerly ACCEPTED offer:
`updateMany` cancelling the CONFIRMED booking(s) of the trip request. -/
def trBookingUpd (trId : Nat) (b : Booking) : Booking :=
  if b.tripRequestId = some trId ∧ b.status = BookingStatus.CONFIRMED then
    { b with status := BookingStatus.CANCELLED }
  else b

def cancelBookingsOfTR (bs : List Booking) (trId : Nat) : List Booking :=
  bs.map (trBookingUpd trId)

/-- POST /api/offers/:offerId/cancel. -/
def cancelOffer (db : DB) (actor oid : Nat) : OfferResp × DB :=
  match findOffer db oid with
  | none => (⟨404, none⟩, db)
  | some o =>
    if o.driverUserId ≠ actor ∧ o.riderUserId ≠ actor then (⟨403, none⟩, db)
    else if o.status = OfferStatus.CANCELLED then (⟨200, some o⟩, db)
    else if o.driverUserId = actor ∧ o.status ≠ OfferStatus.PENDING then
      (⟨409, none⟩, db)
    else if o.status = OfferStatus.ACCEPTED then
      (⟨200, some { o with status := OfferStatus.CANCELLED }⟩,
       { db with
           offers := setOfferStatus db.offers oid OfferStatus.CANCELLED
           bookings := cancelBookingsOfTR db.bookings o.tripRequestId
           tripRequests := setTRStatus db.tripRequests o.tripRequestId TRStatus.ACTIVE })
    else
      (⟨200, some { o with status := OfferStatus.CANCELLED }⟩,
       { db with offers := setOfferStatus db.offers oid OfferStatus.CANCELLED })

-- ── POST /api/bookings/:bookingId/cancel ───────────────────────────────

/-- Step E of the cancel transaction: unconditional atomic increment of
`seatsAvailable` on the ride row named by the booking. -/
def incrUpd (rid : Nat) (n : Int) (r : Ride) : Ride :=
  if r.id = rid then { r with seatsAvailable := r.seatsAvailable + n } else r

def incrRideSeats (rs : List Ride) (rid : Nat) (n : Int) : List Ride :=
  rs.map (incrUpd rid n)

/-- POST /api/bookings/:bookingId/cancel.  Returns only the HTTP code.
When `booking.rideId` is null (a matched booking) the `ride.update`
inside the transaction throws, the transaction rolls back and the route
answers 500; likewise when the referenced ride row is missing. -/
def cancelBooking (db : DB) (actor bid : Nat) : Nat × DB :=
  match findBooking db bid with
  | none => (404, db)
  | some b =>
    if b.riderUserId ≠ actor then (403, db)
    else if b.status = BookingStatus.CANCELLED then (200, db)
    else
      match b.rideId with
      | none => (500, db)
      | some rid =>
        match findRide db rid with
        | none => (500, db)
        | some _ =>
          (200, { db with
                    bookings := setBookingStatus db.bookings bid BookingStatus.CANCELLED
                    rides := incrRideSeats db.rides rid b.seatsBooked })

-- ── POST /api/rides (create) ───────────────────────────────────────────

structure RideResp where
  code : Nat
  body : Option Ride
  deriving DecidableEq, Repr

/-- Numeric fields of a validated ride-creation body. -/
structure RideParams where
  earliestDepartAt : Int
  latestDepartAt : Int
  priceCents : Int
  seatsTotal : Int
  deriving DecidableEq, Repr

/-- Numeric constraints of `validateRideBody` on the modelled fields
(seatsTotal an integer 1..8, priceCents non-negative, earliest strictly
before latest). -/
def validRideParams (p : RideParams) : Bool :=
  decide (p.earliestDepartAt < p.latestDepartAt ∧ 0 ≤ p.priceCents ∧
          1 ≤ p.seatsTotal ∧ p.seatsTotal ≤ 8)

/-- Step 6 of POST /api/rides: the create transaction.  The guard on the
idempotency triple models the P2002 catch block: on a duplicate triple
the transaction rolls back and the existing mapping's ride is returned. -/
def rideCommit (db : DB) (actor key : Nat) (p : RideParams) : RideResp × DB :=
  if hasIdem db actor key EntityType.RIDE then
    (⟨200, (findIdem db actor key EntityType.RIDE).bind
             (fun krow => krow.rideId.bind (findRide db))⟩, db)
  else
    let r : Ride :=
      { id := db.nextId
        driverUserId := actor
        earliestDepartAt := p.earliestDepartAt
        latestDepartAt := p.latestDepartAt
        priceCents := p.priceCents
        seatsTotal := p.seatsTotal
        seatsAvailable := p.seatsTotal
        status := RideStatus.ACTIVE }
    let krow : IdemRecord :=
      { id := db.nextId + 1, userId := actor, key := key
        entityType := EntityType.RIDE
        rideId := some r.id, tripRequestId := none, offerId := none, bookingId := none }
    (⟨201, some r⟩,
     { db with rides := db.rides ++ [r]
               idemKeys := db.idemKeys ++ [krow]
               nextId := db.nextId + 2 })

/-- POST /api/rides.  The idempotency fast path returns the mapping's
ride with 200 whenever a mapping exists — with no null-entity check and
no corrective deletion. -/
def createRide (db : DB) (actor key : Nat) (p : RideParams) : RideResp × DB :=
  if ¬ validRideParams p then (⟨400, none⟩, db)
  else
    match findIdem db actor key EntityType.RIDE with
    | some krow => (⟨200, krow.rideId.bind (findRide db)⟩, db)
    | none => rideCommit db actor key p

-- ── POST /api/trip-requests (create) ───────────────────────────────────

structure TRResp where
  code : Nat
  body : Option TripRequest
  deriving DecidableEq, Repr

structure TRParams where
  earliestDesiredAt : Int
  latestDesiredAt : Int
  seatsNeeded : Int
  deriving DecidableEq, Repr

/-- Numeric constraints of `validateTripRequestBody` on the modelled
fields. -/
def validTRParams (p : TRParams) : Bool :=
  decide (p.earliestDesiredAt < p.latestDesiredAt ∧
          1 ≤ p.seatsNeeded ∧ p.seatsNeeded ≤ 8)

/-- Step 6 of POST /api/trip-requests: the create transaction, with the
P2002 race catch: duplicate triple → re-read; mapping with entity → 200;
mapping whose entity is missing → 410 Gone. -/
def trCommit (db : DB) (actor key : Nat) (p : TRParams) : TRResp × DB :=
  if hasIdem db actor key EntityType.TRIP_REQUEST then
    match (findIdem db actor key EntityType.TRIP_REQUEST).bind
            (fun krow => krow.tripRequestId.bind (findTR db)) with
    | some tr => (⟨200, some tr⟩, db)
    | none => (⟨410, none⟩, db)
  else
    let tr : TripRequest :=
      { id := db.nextId
        riderUserId := actor
        earliestDesiredAt := p.earliestDesiredAt
        latestDesiredAt := p.latestDesiredAt
        seatsNeeded := p.seatsNeeded
        status := TRStatus.ACTIVE }
    let krow : IdemRecord :=
      { id := db.nextId + 1, userId := actor, key := key
        entityType := EntityType.TRIP_REQUEST
        rideId := none, tripRequestId := some tr.id, offerId := none, bookingId := none }
    (⟨201, some tr⟩,
     { db with tripRequests := db.tripRequests ++ [tr]
               idemKeys := db.idemKeys ++ [krow]
               nextId := db.nextId + 2 })

/-- POST /api/trip-requests.  The fast path replays a complete mapping;
a mapping whose trip request is missing is deleted (`deleteMany` by row
id) and the call proceeds on the Fresh path. -/
def createTripRequest (db : DB) (actor key : Nat) (p : TRParams) : TRResp × DB :=
  if ¬ validTRParams p then (⟨400, none⟩, db)
  else
    match findIdem db actor key EntityType.TRIP_REQUEST with
    | some krow =>
      match krow.tripRequestId.bind (findTR db) with
      | some tr => (⟨200, some tr⟩, db)
      | none =>
        trCommit { db with idemKeys := db.idemKeys.filter (fun x => decide (x.id ≠ krow.id)) }
          actor key p
    | none => trCommit db actor key p

-- ── POST /api/trip-requests/:tripRequestId/offers (create) ─────────────

structure OfferParams where
  seatsOffered : Int
  priceCents : Int
  deriving DecidableEq, Repr

/-- Numeric constraints of `validateOfferBody`. -/
def validOfferParams (p : OfferParams) : Bool :=
  decide (1 ≤ p.seatsOffered ∧ p.seatsOffered ≤ 8 ∧ 0 ≤ p.priceCents)

/-- Whether an offer row would violate the partial unique index
`offer_active_per_driver_request` on (tripRequestId, driverUserId)
scoped to status IN (PENDING, ACCEPTED). -/
def activeOfferExists (os : List Offer) (trId driver : Nat) : Bool :=
  os.any (fun o => decide (o.tripRequestId = trId ∧ o.driverUserId = driver ∧
                           (o.status = OfferStatus.PENDING ∨ o.status = OfferStatus.ACCEPTED)))

/-- Step 7 of the offer route: the create transaction.  The first guard
models the partial-unique-index P2002 (mapped to 409); the second the
idempotency-triple P2002 (re-read, replay on success, rethrow → 500). -/
def offerTxn (db : DB) (actor key trId rider : Nat) (p : OfferParams) : OfferResp × DB :=
  if activeOfferExists db.offers trId actor then (⟨409, none⟩, db)
  else if hasIdem db actor key EntityType.OFFER then
    match (findIdem db actor key EntityType.OFFER).bind
            (fun krow => krow.offerId.bind (findOffer db)) with
    | some o => (⟨200, some o⟩, db)
    | none => (⟨500, none⟩, db)
  else
    let o : Offer :=
      { id := db.nextId
        tripRequestId := trId
        driverUserId := actor
        riderUserId := rider
        seatsOffered := p.seatsOffered
        priceCents := p.priceCents
        status := OfferStatus.PENDING }
    let krow : IdemRecord :=
      { id := db.nextId + 1, userId := actor, key := key
        entityType := EntityType.OFFER
        rideId := none, tripRequestId := none, offerId := some o.id, bookingId := none }
    (⟨201, some o⟩,
     { db with offers := db.offers ++ [o]
               idemKeys := db.idemKeys ++ [krow]
               nextId := db.nextId + 2 })

/-- Step 5 of the offer route: business guards (trip request existence,
ACTIVE state, self-offer, optimistic one-active-offer check), then the
transaction. -/
def offerGuards (db : DB) (actor key trId : Nat) (p : OfferParams) : OfferResp × DB :=
  match findTR db trId with
  | none => (⟨404, none⟩, db)
  | some tr =>
    if tr.status ≠ TRStatus.ACTIVE then (⟨409, none⟩, db)
    else if tr.riderUserId = actor then (⟨409, none⟩, db)
    else if activeOfferExists db.offers trId actor then (⟨409, none⟩, db)
    else offerTxn db actor key trId tr.riderUserId p

/-- POST /api/trip-requests/:tripRequestId/offers.  A mapping whose
offer is missing is deleted (corruption cleanup) and the call proceeds
fresh. -/
def createOffer (db : DB) (actor key trId : Nat) (p : OfferParams) : OfferResp × DB :=
  if ¬ validOfferParams p then (⟨400, none⟩, db)
  else
    match findIdem db actor key EntityType.OFFER with
    | some krow =>
      match krow.offerId.bind (findOffer db) with
      | some o => (⟨200, some o⟩, db)
      | none =>
        offerGuards { db with idemKeys := db.idemKeys.filter (fun x => decide (x.id ≠ krow.id)) }
          actor key trId p
    | none => offerGuards db actor key trId p

-- ── POST /api/bookings (create, direct flow) ───────────────────────────

/-- Reasons produced by the zero-rows-affected classification and the
P2002 handling of POST /api/bookings. -/
inductive BookErr where
  | RideNotFound
  | RideNotActive
  | RideDeparted
  | NotEnoughSeats
  | AlreadyBooked
  | Unable
  deriving DecidableEq, Repr

structure BookingResp where
  code : Nat
  body : Option Booking
  reason : Option BookErr
  deriving DecidableEq, Repr

/-- Row condition of the conditional `updateMany` decrement: the ride is
the addressed one, ACTIVE, not yet departed, and has enough seats. -/
def rideBookCond (r : Ride) (rid : Nat) (seats now : Int) : Bool :=
  decide (r.id = rid ∧ r.status = RideStatus.ACTIVE ∧
          now < r.latestDepartAt ∧ seats ≤ r.seatsAvailable)

/-- The conditional decrement itself: every row satisfying the condition
loses `seats` from `seatsAvailable`. -/
def decrUpd (rid : Nat) (seats now : Int) (r : Ride) : Ride :=
  if rideBookCond r rid seats now then
    { r with seatsAvailable := r.seatsAvailable - seats }
  else r

def decrementRides (rs : List Ride) (rid : Nat) (seats now : Int) : List Ride :=
  rs.map (decrUpd rid seats now)

/-- Whether a booking insert would violate the partial unique index on
(rideId, riderUserId) scoped to CONFIRMED. -/
def confirmedBookingExists (bs : List Booking) (rid actor : Nat) : Bool :=
  bs.any (fun b => decide (b.rideId = some rid ∧ b.riderUserId = actor ∧
                           b.status = BookingStatus.CONFIRMED))

/-- Step 7 of POST /api/bookings: the transaction plus its catch block.
Zero rows affected by the decrement → re-read and classify (ride missing
→ 404; not ACTIVE → 409; departed → 409; short of seats → 409).  A P2002
from the booking insert rolls the decrement back and answers 409; a
P2002 from the idempotency insert rolls back, re-reads the mapping and
replays it when complete, otherwise falls through to the 409. -/
def bookingTxn (db : DB) (actor key rid : Nat) (seats now : Int) : BookingResp × DB :=
  if (db.rides.filter (fun r => rideBookCond r rid seats now)).length = 0 then
    match findRide db rid with
    | none => (⟨404, none, some BookErr.RideNotFound⟩, db)
    | some r =>
      if r.status ≠ RideStatus.ACTIVE then (⟨409, none, some BookErr.RideNotActive⟩, db)
      else if r.latestDepartAt ≤ now then (⟨409, none, some BookErr.RideDeparted⟩, db)
      else if r.seatsAvailable < seats then (⟨409, none, some BookErr.NotEnoughSeats⟩, db)
      else (⟨500, none, some BookErr.Unable⟩, db)
  else if confirmedBookingExists db.bookings rid actor then
    (⟨409, none, some BookErr.AlreadyBooked⟩, db)
  else if hasIdem db actor key EntityType.BOOKING then
    match (findIdem db actor key EntityType.BOOKING).bind
            (fun krow => krow.bookingId.bind (findBooking db)) with
    | some b => (⟨200, some b, none⟩, db)
    | none => (⟨409, none, some BookErr.AlreadyBooked⟩, db)
  else
    let b : Booking :=
      { id := db.nextId
        rideId := some rid
        tripRequestId := none
        driverUserId := none
        riderUserId := actor
        seatsBooked := seats
        priceCents := none
        status := BookingStatus.CONFIRMED }
    let krow : IdemRecord :=
      { id := db.nextId + 1, userId := actor, key := key
        entityType := EntityType.BOOKING
        rideId := none, tripRequestId := none, offerId := none, bookingId := some b.id }
    (⟨201, some b, none⟩,
     { db with rides := decrementRides db.rides rid seats now
               bookings := db.bookings ++ [b]
               idemKeys := db.idemKeys ++ [krow]
               nextId := db.nextId + 2 })

/-- POST /api/bookings.  Seats are validated to an integer 1..8; the
fast path replays only a mapping whose booking exists — a mapping with a
missing booking falls through to the transaction without any corrective
deletion. -/
def createBooking (db : DB) (actor key rid : Nat) (seats now : Int) : BookingResp × DB :=
  if seats < 1 ∨ 8 < seats then (⟨400, none, none⟩, db)
  else
    match findIdem db actor key EntityType.BOOKING with
    | some krow =>
      match krow.bookingId.bind (findBooking db) with
      | some b => (⟨200, some b, none⟩, db)
      | none => bookingTxn db actor key rid seats now
    | none => bookingTxn db actor key rid seats now

-- ── GET /api/rides and GET /api/trip-requests (browse) ─────────────────

/-- The `parseLimit` helper of src/lib/browse-query.ts on an already
digit-parsed input: absence defaults to 20; values below 1 or above 50
are rejected (`none`, surfaced as 400 Bad Request). -/
def parseLimit (v : Option Nat) : Option Nat :=
  match v with
  | none => some 20
  | some n => if n < 1 then none else if 50 < n then none else some n

/-- Keyset order of GET /api/rides: (earliestDepartAt asc, id asc). -/
def rideLe (a b : Ride) : Prop :=
  a.earliestDepartAt < b.earliestDepartAt ∨
    (a.earliestDepartAt = b.earliestDepartAt ∧ a.id ≤ b.id)

instance : DecidableRel rideLe := fun a b => by
  unfold rideLe; exact inferInstance

instance : IsTotal Ride rideLe := ⟨by intro a b; unfold rideLe; omega⟩

instance : IsTrans Ride rideLe := ⟨by intro a b c; unfold rideLe; omega⟩

/-- Keyset order of GET /api/trip-requests: (earliestDesiredAt asc, id asc). -/
def trLe (a b : TripRequest) : Prop :=
  a.earliestDesiredAt < b.earliestDesiredAt ∨
    (a.earliestDesiredAt = b.earliestDesiredAt ∧ a.id ≤ b.id)

instance : DecidableRel trLe := fun a b => by
  unfold trLe; exact inferInstance

instance : IsTotal TripRequest trLe := ⟨by intro a b; unfold trLe; omega⟩

instance : IsTrans TripRequest trLe := ⟨by intro a b c; unfold trLe; omega⟩

/-- Cursor clause: OR of (timestamp strictly greater) and (timestamp
equal and id strictly greater). -/
def afterCursor (c : Option (Int × Nat)) (t : Int) (i : Nat) : Bool :=
  match c with
  | none => true
  | some (ct, ci) => decide (ct < t ∨ (t = ct ∧ ci < i))

/-- Where-clause of GET /api/rides with the optional filters absent:
ACTIVE, not departed, earliest at or after `now` (the `earliestAfter`
default), at least one seat (the default seats threshold), plus the
cursor clause. -/
def rideBrowseCond (now : Int) (c : Option (Int × Nat)) (r : Ride) : Bool :=
  decide (r.status = RideStatus.ACTIVE ∧ now < r.latestDepartAt ∧
          now ≤ r.earliestDepartAt ∧ 1 ≤ r.seatsAvailable) &&
    afterCursor c r.earliestDepartAt r.id

/-- Items of GET /api/rides: filtered rows in keyset order, truncated to
the page size (`take limit` models the take-limit-plus-one-then-slice of
the route). -/
def listRides (db : DB) (now : Int) (c : Option (Int × Nat)) (limit : Nat) : List Ride :=
  (List.insertionSort rideLe (db.rides.filter (rideBrowseCond now c))).take limit

/-- Where-clause of GET /api/trip-requests with the optional filters
absent: ACTIVE, latest desired time still in the future, plus the cursor
clause. -/
def trBrowseCond (now : Int) (c : Option (Int × Nat)) (t : TripRequest) : Bool :=
  decide (t.status = TRStatus.ACTIVE ∧ now < t.latestDesiredAt) &&
    afterCursor c t.earliestDesiredAt t.id

/-- Items of GET /api/trip-requests. -/
def listTripRequests (db : DB) (now : Int) (c : Option (Int × Nat)) (limit : Nat) :
    List TripRequest :=
  (List.insertionSort trLe (db.tripRequests.filter (trBrowseCond now c))).take limit

-- ── Operation sequences and the seat invariant ─────────────────────────

/-- One externally invoked mutating operation of the core. -/
inductive Op where
  | createRide (actor key : Nat) (p : RideParams)
  | createTripRequest (actor key : Nat) (p : TRParams)
  | createOffer (actor key trId : Nat) (p : OfferParams)
  | acceptOffer (actor oid : Nat)
  | cancelOffer (actor oid : Nat)
  | createBooking (actor key rid : Nat) (seats now : Int)
  | cancelBooking (actor bid : Nat)

/-- State effect of one operation (the response is discarded). -/
def applyOp (db : DB) : Op → DB
  | Op.createRide a k p => (createRide db a k p).2
  | Op.createTripRequest a k p => (createTripRequest db a k p).2
  | Op.createOffer a k trId p => (createOffer db a k trId p).2
  | Op.acceptOffer a oid => (acceptOffer db a oid).2
  | Op.cancelOffer a oid => (cancelOffer db a oid).2
  | Op.createBooking a k rid s n => (createBooking db a k rid s n).2
  | Op.cancelBooking a bid => (cancelBooking db a bid).2

/-- State after a sequence of operations. -/
def applyOps (db : DB) : List Op → DB
  | [] => db
  | op :: ops => applyOps (applyOp db op) ops

/-- Seats of a booking counted against a given ride: its seat count when
it is a CONFIRMED direct booking of that ride, otherwise zero. -/
def seatContrib (rid : Nat) (b : Booking) : Int :=
  if b.rideId = some rid ∧ b.status = BookingStatus.CONFIRMED then b.seatsBooked else 0

/-- Total seats held by CONFIRMED direct bookings of a ride. -/
def bookedSum (bs : List Booking) (rid : Nat) : Int :=
  (bs.map (seatContrib rid)).sum

/-- Inductive well-formedness of a snapshot: positive seat counts on
bookings and offers, row-id freshness against `nextId`, distinct ride
ids, and the seat-accounting bound tying each ride's `seatsAvailable` to
its CONFIRMED direct bookings. -/
def Inv (db : DB) : Prop :=
  (∀ b ∈ db.bookings, 0 < b.seatsBooked) ∧
  (∀ o ∈ db.offers, 0 < o.seatsOffered) ∧
  (∀ r ∈ db.rides, r.id < db.nextId) ∧
  (∀ b ∈ db.bookings, ∀ rid, b.rideId = some rid → rid < db.nextId) ∧
  (db.rides.map Ride.id).Nodup ∧
  (∀ r ∈ db.rides, 0 ≤ r.seatsAvailable ∧
     r.seatsAvailable + bookedSum db.bookings r.id ≤ r.seatsTotal)

instance (db : DB) : Decidable (Inv db) := by
  unfold Inv
  exact inferInstance

-- ── Shared lemmas ──────────────────────────────────────────────────────

/-- Any non-200 outcome of the accept transaction rolls the snapshot
back unchanged. -/
theorem acceptOffer_rollback (db : DB) (a i : Nat)
    (h : (acceptOffer db a i).1.code ≠ 200) : (acceptOffer db a i).2 = db := by
  unfold acceptOffer at h ⊢
  cases hfo : findOffer db i with
  | none => simp [hfo]
  | some o =>
    cases htr : findTR db o.tripRequestId with
    | none => simp [hfo, htr]
    | some tr =>
      simp only [hfo, htr] at h ⊢
      split_ifs at h ⊢ <;> simp_all

theorem mem_of_find?_some {α : Type} {p : α → Bool} {l : List α} {a : α}
    (h : l.find? p = some a) : a ∈ l :=
  List.mem_of_find?_eq_some h

-- ── C1 ─────────────────────────────────────────────────────────────────

/-- C1: when the rider who owns the trip request accepts an existing
PENDING offer whose trip request is ACTIVE and which has no ACCEPTED
sibling, the transaction answers 200 and atomically: marks the offer
ACCEPTED, appends one CONFIRMED booking carrying the trip request, the
offer's driver, the rider, the offered seats and price, closes the trip
request, and cancels every other PENDING offer of that trip request;
and every failing run of the transaction leaves the snapshot unchanged. -/
theorem c1_accept_offer_cascade
    (db : DB) (actor oid : Nat) (o : Offer) (tr : TripRequest)
    (h1 : findOffer db oid = some o)
    (h2 : findTR db o.tripRequestId = some tr)
    (h3 : tr.riderUserId = actor)
    (h4 : o.status = OfferStatus.PENDING)
    (h5 : tr.status = TRStatus.ACTIVE)
    (h6 : ∀ o2 ∈ db.offers, o2.tripRequestId = o.tripRequestId →
            o2.status ≠ OfferStatus.ACCEPTED)
    (h7 : o.riderUserId = tr.riderUserId) :
    (acceptOffer db actor oid).1.code = 200 ∧
    (acceptOffer db actor oid).1.offer = some { o with status := OfferStatus.ACCEPTED } ∧
    (∃ bk, (acceptOffer db actor oid).1.booking = some bk ∧
       (acceptOffer db actor oid).2.bookings = db.bookings ++ [bk] ∧
       bk.tripRequestId = some o.tripRequestId ∧
       bk.driverUserId = some o.driverUserId ∧
       bk.riderUserId = tr.riderUserId ∧
       bk.seatsBooked = o.seatsOffered ∧
       bk.priceCents = some o.priceCents ∧
       bk.status = BookingStatus.CONFIRMED ∧
       bk.rideId = none) ∧
    (∀ t ∈ (acceptOffer db actor oid).2.tripRequests,
       t.id = o.tripRequestId → t.status = TRStatus.CLOSED) ∧
    (∀ o2 ∈ (acceptOffer db actor oid).2.offers,
       o2.id = oid → o2.status = OfferStatus.ACCEPTED) ∧
    (∀ o2 ∈ db.offers, o2.tripRequestId = o.tripRequestId →
       o2.status = OfferStatus.PENDING → o2.id ≠ oid →
       { o2 with status := OfferStatus.CANCELLED } ∈ (acceptOffer db actor oid).2.offers) ∧
    (∀ db2 a2 i2, (acceptOffer db2 a2 i2).1.code ≠ 200 →
       (acceptOffer db2 a2 i2).2 = db2) := by
  have hany : db.offers.any
      (fun o2 => decide (o2.tripRequestId = o.tripRequestId ∧
                         o2.status = OfferStatus.ACCEPTED)) = false := by
    rw [List.any_eq_false]
    intro o2 hmem
    simp only [decide_eq_true_eq]
    exact fun hc => h6 o2 hmem hc.1 hc.2
  have hstep :
      acceptOffer db actor oid =
        (⟨200, some { o with status := OfferStatus.ACCEPTED },
          some { id := db.nextId, rideId := none,
                 tripRequestId := some o.tripRequestId,
                 driverUserId := some o.driverUserId,
                 riderUserId := o.riderUserId,
                 seatsBooked := o.seatsOffered,
                 priceCents := some o.priceCents,
                 status := BookingStatus.CONFIRMED }⟩,
         { db with
             offers := cancelLosers (setOfferStatus db.offers oid OfferStatus.ACCEPTED)
                         o.tripRequestId oid
             bookings := db.bookings ++
               [{ id := db.nextId, rideId := none,
                  tripRequestId := some o.tripRequestId,
                  driverUserId := some o.driverUserId,
                  riderUserId := o.riderUserId,
                  seatsBooked := o.seatsOffered,
                  priceCents := some o.priceCents,
                  status := BookingStatus.CONFIRMED }]
             tripRequests := setTRStatus db.tripRequests o.tripRequestId TRStatus.CLOSED
             nextId := db.nextId + 1 }) := by
    unfold acceptOffer
    simp [h1, h2, h3, h4, h5, hany]
    exact fun x hx hTr => h6 x hx hTr
  refine ⟨by rw [hstep], by rw [hstep], ?_, ?_, ?_, ?_,
    fun db2 a2 i2 hne => acceptOffer_rollback db2 a2 i2 hne⟩
  · refine ⟨_, by rw [hstep], by rw [hstep], rfl, rfl, h7, rfl, rfl, rfl, rfl⟩
  · rw [hstep]
    intro t ht hid
    simp only [setTRStatus, List.mem_map] at ht
    obtain ⟨t0, _, rfl⟩ := ht
    by_cases h : t0.id = o.tripRequestId
    · simp [trStatusUpd, h]
    · simp only [trStatusUpd, if_neg h] at hid ⊢
      exact absurd hid h
  · rw [hstep]
    intro o2 hmem hid
    simp only [cancelLosers, setOfferStatus, List.map_map, List.mem_map,
      Function.comp] at hmem
    obtain ⟨o0, _, rfl⟩ := hmem
    by_cases h : o0.id = oid
    · simp [offerStatusUpd, loserUpd, h]
    · exfalso
      apply h
      simp only [offerStatusUpd, if_neg h, loserUpd] at hid
      split at hid <;> exact hid
  · rw [hstep]
    intro o2 hmem hTr hPend hne
    simp only [cancelLosers, setOfferStatus, List.map_map]
    refine List.mem_map.mpr ⟨o2, hmem, ?_⟩
    show loserUpd o.tripRequestId oid (offerStatusUpd oid OfferStatus.ACCEPTED o2) =
      { o2 with status := OfferStatus.CANCELLED }
    rw [offerStatusUpd, if_neg hne, loserUpd, if_pos ⟨hTr, hPend, hne⟩]

/-- Witness for C1 at a concrete snapshot: trip request 1 owned by rider
10, PENDING offers 2 (driver 20) and 3 (driver 21). -/
theorem c1_accept_offer_cascade_witness :
    ((acceptOffer ⟨[], [⟨1, 10, 0, 10, 2, TRStatus.ACTIVE⟩],
        [⟨2, 1, 20, 10, 3, 500, OfferStatus.PENDING⟩,
         ⟨3, 1, 21, 10, 2, 400, OfferStatus.PENDING⟩], [], [], 4⟩ 10 2).1.code = 200) :=
  (c1_accept_offer_cascade ⟨[], [⟨1, 10, 0, 10, 2, TRStatus.ACTIVE⟩],
      [⟨2, 1, 20, 10, 3, 500, OfferStatus.PENDING⟩,
       ⟨3, 1, 21, 10, 2, 400, OfferStatus.PENDING⟩], [], [], 4⟩ 10 2
      ⟨2, 1, 20, 10, 3, 500, OfferStatus.PENDING⟩ ⟨1, 10, 0, 10, 2, TRStatus.ACTIVE⟩
      (by decide) (by decide) (by decide) (by decide) (by decide)
      (by decide) (by decide)).1

-- ── C6 ─────────────────────────────────────────────────────────────────

/-- C6: cancelling an ACCEPTED offer as its rider answers 200 and
atomically cancels the offer, cancels the CONFIRMED booking(s) of its
trip request and reopens the trip request to ACTIVE; cancelling a
PENDING offer (by driver or rider) changes only the offer — trip
requests and bookings are untouched; a driver cancelling an ACCEPTED
offer gets 409 with no write; cancelling an already-CANCELLED offer
answers 200 with no write. -/
theorem c6_cancel_offer (db : DB) (actor oid : Nat) (o : Offer)
    (h1 : findOffer db oid = some o) :
    (o.status = OfferStatus.ACCEPTED → o.riderUserId = actor → o.driverUserId ≠ actor →
       (cancelOffer db actor oid).1 = ⟨200, some { o with status := OfferStatus.CANCELLED }⟩ ∧
       (∀ b ∈ db.bookings, b.tripRequestId = some o.tripRequestId →
          b.status = BookingStatus.CONFIRMED →
          { b with status := BookingStatus.CANCELLED } ∈ (cancelOffer db actor oid).2.bookings) ∧
       (∀ t ∈ (cancelOffer db actor oid).2.tripRequests,
          t.id = o.tripRequestId → t.status = TRStatus.ACTIVE) ∧
       (∀ o2 ∈ (cancelOffer db actor oid).2.offers,
          o2.id = oid → o2.status = OfferStatus.CANCELLED)) ∧
    (o.status = OfferStatus.PENDING → (o.driverUserId = actor ∨ o.riderUserId = actor) →
       (cancelOffer db actor oid).1 = ⟨200, some { o with status := OfferStatus.CANCELLED }⟩ ∧
       (cancelOffer db actor oid).2.tripRequests = db.tripRequests ∧
       (cancelOffer db actor oid).2.bookings = db.bookings ∧
       (cancelOffer db actor oid).2.rides = db.rides ∧
       (cancelOffer db actor oid).2.offers = setOfferStatus db.offers oid OfferStatus.CANCELLED) ∧
    (o.status = OfferStatus.ACCEPTED → o.driverUserId = actor →
       cancelOffer db actor oid = (⟨409, none⟩, db)) ∧
    (o.status = OfferStatus.CANCELLED → (o.driverUserId = actor ∨ o.riderUserId = actor) →
       cancelOffer db actor oid = (⟨200, some o⟩, db)) := by
  refine ⟨?_, ?_, ?_, ?_⟩
  · intro hSt hR hD
    have hstep : cancelOffer db actor oid =
        (⟨200, some { o with status := OfferStatus.CANCELLED }⟩,
         { db with
             offers := setOfferStatus db.offers oid OfferStatus.CANCELLED
             bookings := cancelBookingsOfTR db.bookings o.tripRequestId
             tripRequests := setTRStatus db.tripRequests o.tripRequestId TRStatus.ACTIVE }) := by
      unfold cancelOffer
      simp [h1, hSt, hR, hD]
    refine ⟨by rw [hstep], ?_, ?_, ?_⟩
    · intro b hb hTr hCf
      rw [hstep]
      simp only [cancelBookingsOfTR]
      refine List.mem_map.mpr ⟨b, hb, ?_⟩
      rw [trBookingUpd, if_pos ⟨hTr, hCf⟩]
    · rw [hstep]
      intro t ht hid
      simp only [setTRStatus, List.mem_map] at ht
      obtain ⟨t0, _, rfl⟩ := ht
      by_cases h : t0.id = o.tripRequestId
      · simp [trStatusUpd, h]
      · simp only [trStatusUpd, if_neg h] at hid ⊢
        exact absurd hid h
    · rw [hstep]
      intro o2 hmem hid
      simp only [setOfferStatus, List.mem_map] at hmem
      obtain ⟨o0, _, rfl⟩ := hmem
      by_cases h : o0.id = oid
      · simp [offerStatusUpd, h]
      · exfalso
        apply h
        simp only [offerStatusUpd, if_neg h] at hid
        exact hid
  · intro hSt hRole
    have hRole2 : ¬(o.driverUserId ≠ actor ∧ o.riderUserId ≠ actor) := by
      rcases hRole with h | h
      · exact fun hc => hc.1 h
      · exact fun hc => hc.2 h
    have hstep : cancelOffer db actor oid =
        (⟨200, some { o with status := OfferStatus.CANCELLED }⟩,
         { db with offers := setOfferStatus db.offers oid OfferStatus.CANCELLED }) := by
      unfold cancelOffer
      simp [h1, hSt, hRole2]
    rw [hstep]
    exact ⟨rfl, rfl, rfl, rfl, rfl⟩
  · intro hSt hD
    unfold cancelOffer
    simp [h1, hSt, hD]
  · intro hSt hRole
    have hRole2 : ¬(o.driverUserId ≠ actor ∧ o.riderUserId ≠ actor) := by
      rcases hRole with h | h
      · exact fun hc => hc.1 h
      · exact fun hc => hc.2 h
    unfold cancelOffer
    simp [h1, hSt, hRole2]

/-- Witness for C6 at a concrete snapshot: offer 2 is ACCEPTED and
cancelled by its rider 10, cascading to booking 5 and trip request 1. -/
theorem c6_cancel_offer_witness :
    ((cancelOffer ⟨[], [⟨1, 10, 0, 10, 2, TRStatus.CLOSED⟩],
        [⟨2, 1, 20, 10, 3, 500, OfferStatus.ACCEPTED⟩],
        [⟨5, none, some 1, some 20, 10, 3, some 500, BookingStatus.CONFIRMED⟩], [], 6⟩
        10 2).1 =
      ⟨200, some ⟨2, 1, 20, 10, 3, 500, OfferStatus.CANCELLED⟩⟩) :=
  ((c6_cancel_offer ⟨[], [⟨1, 10, 0, 10, 2, TRStatus.CLOSED⟩],
      [⟨2, 1, 20, 10, 3, 500, OfferStatus.ACCEPTED⟩],
      [⟨5, none, some 1, some 20, 10, 3, some 500, BookingStatus.CONFIRMED⟩], [], 6⟩
      10 2 ⟨2, 1, 20, 10, 3, 500, OfferStatus.ACCEPTED⟩ (by decide)).1
    (by decide) (by decide) (by decide)).1

-- ── C7 ─────────────────────────────────────────────────────────────────

/-- C7: only the booking's rider may cancel (403 with no write
otherwise); cancelling an already-CANCELLED booking answers 200 with no
write; and cancelling a CONFIRMED direct booking answers 200, marks the
booking CANCELLED and adds its seat count back to the ride's
`seatsAvailable`, both in the same atomic step, touching nothing else. -/
theorem c7_cancel_booking (db : DB) (actor bid : Nat) (b : Booking)
    (h1 : findBooking db bid = some b) :
    (b.riderUserId ≠ actor → cancelBooking db actor bid = (403, db)) ∧
    (b.riderUserId = actor → b.status = BookingStatus.CANCELLED →
       cancelBooking db actor bid = (200, db)) ∧
    (∀ rid r, b.riderUserId = actor → b.status = BookingStatus.CONFIRMED →
       b.rideId = some rid → findRide db rid = some r →
       (cancelBooking db actor bid).1 = 200 ∧
       { b with status := BookingStatus.CANCELLED } ∈ (cancelBooking db actor bid).2.bookings ∧
       (∀ r2 ∈ db.rides, r2.id = rid →
          { r2 with seatsAvailable := r2.seatsAvailable + b.seatsBooked } ∈
            (cancelBooking db actor bid).2.rides) ∧
       (cancelBooking db actor bid).2.tripRequests = db.tripRequests ∧
       (cancelBooking db actor bid).2.offers = db.offers ∧
       (cancelBooking db actor bid).2.idemKeys = db.idemKeys) := by
  refine ⟨?_, ?_, ?_⟩
  · intro hne
    unfold cancelBooking
    simp [h1, hne]
  · intro hR hSt
    unfold cancelBooking
    simp [h1, hR, hSt]
  · intro rid r hR hSt hRid hRide
    have hstep : cancelBooking db actor bid =
        (200, { db with
                  bookings := setBookingStatus db.bookings bid BookingStatus.CANCELLED
                  rides := incrRideSeats db.rides rid b.seatsBooked }) := by
      unfold cancelBooking
      simp [h1, hR, hSt, hRid, hRide]
    refine ⟨by rw [hstep], ?_, ?_, by rw [hstep], by rw [hstep], by rw [hstep]⟩
    · rw [hstep]
      simp only [setBookingStatus]
      refine List.mem_map.mpr ⟨b, mem_of_find?_some h1, ?_⟩
      have hbid : b.id = bid := by
        have := List.find?_some h1
        simpa using this
      rw [bookingStatusUpd, if_pos hbid]
    · intro r2 hr2 hid
      rw [hstep]
      simp only [incrRideSeats]
      refine List.mem_map.mpr ⟨r2, hr2, ?_⟩
      rw [incrUpd, if_pos hid]

/-- Witness for C7 at a concrete snapshot: rider 10 cancels CONFIRMED
direct booking 3 of ride 1. -/
theorem c7_cancel_booking_witness :
    ((cancelBooking ⟨[⟨1, 30, 0, 10, 100, 4, 2, RideStatus.ACTIVE⟩], [], [],
        [⟨3, some 1, none, none, 10, 2, none, BookingStatus.CONFIRMED⟩], [], 4⟩
        10 3).1 = 200) :=
  (((c7_cancel_booking ⟨[⟨1, 30, 0, 10, 100, 4, 2, RideStatus.ACTIVE⟩], [], [],
      [⟨3, some 1, none, none, 10, 2, none, BookingStatus.CONFIRMED⟩], [], 4⟩
      10 3 ⟨3, some 1, none, none, 10, 2, none, BookingStatus.CONFIRMED⟩
      (by decide)).2.2 1 ⟨1, 30, 0, 10, 100, 4, 2, RideStatus.ACTIVE⟩
      (by decide) (by decide) (by decide) (by decide))).1

-- ── C10 ────────────────────────────────────────────────────────────────

/-- C10: every booking created by the accept-offer flow carries no ride
reference, and a direct cancel of such a CONFIRMED booking by its rider
fails with 500 — the `ride.update` on the null ride id throws inside the
transaction, everything rolls back, and the booking stays CONFIRMED. -/
theorem c10_matched_booking_cancel :
    (∀ db a i bk, (acceptOffer db a i).1.booking = some bk → bk.rideId = none) ∧
    (∀ db actor bid b, findBooking db bid = some b → b.rideId = none →
       b.status = BookingStatus.CONFIRMED → b.riderUserId = actor →
       cancelBooking db actor bid = (500, db)) := by
  constructor
  · intro db a i bk h
    unfold acceptOffer at h
    split at h
    · simp at h
    · split at h
      · simp at h
      · split_ifs at h
        all_goals simp at h
        simp [← h]
  · intro db actor bid b h1 hRid hSt hR
    unfold cancelBooking
    simp [h1, hR, hSt, hRid]

/-- Witness for C10: booking 5 was produced by offer acceptance (ride
reference null); its rider 10 cannot cancel it — the call answers 500
and leaves the snapshot untouched. -/
theorem c10_matched_booking_cancel_witness :
    (cancelBooking ⟨[], [], [],
        [⟨5, none, some 1, some 20, 10, 3, some 500, BookingStatus.CONFIRMED⟩], [], 6⟩
        10 5) =
      (500, ⟨[], [], [],
        [⟨5, none, some 1, some 20, 10, 3, some 500, BookingStatus.CONFIRMED⟩], [], 6⟩) :=
  c10_matched_booking_cancel.2 _ 10 5
    ⟨5, none, some 1, some 20, 10, 3, some 500, BookingStatus.CONFIRMED⟩
    (by decide) (by decide) (by decide) (by decide)

-- ── C5 ─────────────────────────────────────────────────────────────────

theorem findRide_id {db : DB} {rid : Nat} {r : Ride} (h : findRide db rid = some r) :
    r.id = rid := by
  have := List.find?_some h
  simpa using this

theorem findRide_mem {db : DB} {rid : Nat} {r : Ride} (h : findRide db rid = some r) :
    r ∈ db.rides :=
  List.mem_of_find?_eq_some h

/-- When the classified re-read fails some guard and ride ids are
distinct, no row satisfies the conditional-update predicate. -/
theorem bookFilter_nil (db : DB) (rid : Nat) (seats now : Int) (r : Ride)
    (hnodup : (db.rides.map Ride.id).Nodup)
    (hr : findRide db rid = some r)
    (hfail : rideBookCond r rid seats now = false) :
    db.rides.filter (fun r2 => rideBookCond r2 rid seats now) = [] := by
  rw [List.filter_eq_nil_iff]
  intro r2 hr2 hc
  have hc2 := hc
  simp only [rideBookCond, decide_eq_true_eq] at hc2
  have hid2 : r2.id = rid := hc2.1
  have : r2 = r :=
    List.inj_on_of_nodup_map hnodup hr2 (findRide_mem hr)
      (by rw [hid2, findRide_id hr])
  rw [this, hfail] at hc
  cases hc

/-- C5: the seat reservation is a single conditional decrement — a row
is decremented exactly when it is the addressed ride, ACTIVE, not yet
departed and holds enough seats — and a zero-rows-affected outcome is
classified by re-reading the ride in priority order: missing → 404 Not
Found; not ACTIVE → 409; departed → 409; short of seats → 409. -/
theorem c5_reserve_classification (db : DB) (actor key rid : Nat) (seats now : Int)
    (hnodup : (db.rides.map Ride.id).Nodup) :
    (findRide db rid = none →
       bookingTxn db actor key rid seats now = (⟨404, none, some BookErr.RideNotFound⟩, db)) ∧
    (∀ r, findRide db rid = some r → r.status ≠ RideStatus.ACTIVE →
       bookingTxn db actor key rid seats now = (⟨409, none, some BookErr.RideNotActive⟩, db)) ∧
    (∀ r, findRide db rid = some r → r.status = RideStatus.ACTIVE → r.latestDepartAt ≤ now →
       bookingTxn db actor key rid seats now = (⟨409, none, some BookErr.RideDeparted⟩, db)) ∧
    (∀ r, findRide db rid = some r → r.status = RideStatus.ACTIVE → now < r.latestDepartAt →
       r.seatsAvailable < seats →
       bookingTxn db actor key rid seats now = (⟨409, none, some BookErr.NotEnoughSeats⟩, db)) ∧
    (∀ r, findRide db rid = some r → r.status = RideStatus.ACTIVE → now < r.latestDepartAt →
       seats ≤ r.seatsAvailable →
       confirmedBookingExists db.bookings rid actor = false →
       hasIdem db actor key EntityType.BOOKING = false →
       (bookingTxn db actor key rid seats now).1.code = 201 ∧
       { r with seatsAvailable := r.seatsAvailable - seats } ∈
         (bookingTxn db actor key rid seats now).2.rides ∧
       (∀ r2 ∈ db.rides, r2.id ≠ rid → r2 ∈ (bookingTxn db actor key rid seats now).2.rides)) := by
  refine ⟨?_, ?_, ?_, ?_, ?_⟩
  · intro hnone
    have hnil : db.rides.filter (fun r2 => rideBookCond r2 rid seats now) = [] := by
      rw [List.filter_eq_nil_iff]
      intro r2 hr2 hc
      simp only [rideBookCond, decide_eq_true_eq] at hc
      have := List.find?_eq_none.mp hnone r2 hr2
      simp [hc.1] at this
    unfold bookingTxn
    simp [hnil, hnone]
  · intro r hr hSt
    have hfail : rideBookCond r rid seats now = false := by
      simp only [rideBookCond, decide_eq_false_iff_not]
      exact fun hc => hSt hc.2.1
    have hnil := bookFilter_nil db rid seats now r hnodup hr hfail
    unfold bookingTxn
    simp [hnil, hr, hSt]
  · intro r hr hSt hDep
    have hfail : rideBookCond r rid seats now = false := by
      simp only [rideBookCond, decide_eq_false_iff_not]
      intro hc
      omega
    have hnil := bookFilter_nil db rid seats now r hnodup hr hfail
    unfold bookingTxn
    simp [hnil, hr, hSt, hDep]
  · intro r hr hSt hFut hShort
    have hfail : rideBookCond r rid seats now = false := by
      simp only [rideBookCond, decide_eq_false_iff_not]
      intro hc
      omega
    have hnil := bookFilter_nil db rid seats now r hnodup hr hfail
    have hD : ¬ (r.latestDepartAt ≤ now) := not_le.mpr hFut
    unfold bookingTxn
    simp [hnil, hr, hSt, hD, hShort]
  · intro r hr hSt hFut hSeats hDup hKey
    have hcond : rideBookCond r rid seats now = true := by
      simp [rideBookCond, findRide_id hr, hSt, hFut, hSeats]
    have hne : db.rides.filter (fun r2 => rideBookCond r2 rid seats now) ≠ [] := by
      intro hc
      exact absurd hcond (by
        have := List.filter_eq_nil_iff.mp hc r (findRide_mem hr)
        simpa using this)
    have hlen : ¬ (db.rides.filter (fun r2 => rideBookCond r2 rid seats now)).length = 0 := by
      simpa [List.length_eq_zero] using hne
    have hstep : bookingTxn db actor key rid seats now =
        (⟨201, some { id := db.nextId, rideId := some rid, tripRequestId := none,
                      driverUserId := none, riderUserId := actor, seatsBooked := seats,
                      priceCents := none, status := BookingStatus.CONFIRMED }, none⟩,
         { db with rides := decrementRides db.rides rid seats now
                   bookings := db.bookings ++
                     [{ id := db.nextId, rideId := some rid, tripRequestId := none,
                        driverUserId := none, riderUserId := actor, seatsBooked := seats,
                        priceCents := none, status := BookingStatus.CONFIRMED }]
                   idemKeys := db.idemKeys ++
                     [{ id := db.nextId + 1, userId := actor, key := key,
                        entityType := EntityType.BOOKING, rideId := none,
                        tripRequestId := none, offerId := none, bookingId := some db.nextId }]
                   nextId := db.nextId + 2 }) := by
      unfold bookingTxn
      simp [hlen, hDup, hKey]
    refine ⟨by rw [hstep], ?_, ?_⟩
    · rw [hstep]
      simp only [decrementRides]
      refine List.mem_map.mpr ⟨r, findRide_mem hr, ?_⟩
      rw [decrUpd, if_pos hcond]
    · intro r2 hr2 hne2
      rw [hstep]
      simp only [decrementRides]
      refine List.mem_map.mpr ⟨r2, hr2, ?_⟩
      rw [decrUpd, if_neg ?_]
      simp only [rideBookCond, decide_eq_true_eq]
      intro hc
      exact hne2 hc.1

/-- Witness for C5 at a concrete snapshot: ride 1 has one free seat, a
request for two seats is classified as Not Enough Seats. -/
theorem c5_reserve_classification_witness :
    bookingTxn ⟨[⟨1, 30, 0, 10, 100, 4, 1, RideStatus.ACTIVE⟩], [], [], [], [], 2⟩
        10 5 1 2 3 =
      (⟨409, none, some BookErr.NotEnoughSeats⟩,
       ⟨[⟨1, 30, 0, 10, 100, 4, 1, RideStatus.ACTIVE⟩], [], [], [], [], 2⟩) :=
  ((c5_reserve_classification ⟨[⟨1, 30, 0, 10, 100, 4, 1, RideStatus.ACTIVE⟩],
      [], [], [], [], 2⟩ 10 5 1 2 3 (by decide)).2.2.2.1
    ⟨1, 30, 0, 10, 100, 4, 1, RideStatus.ACTIVE⟩
    (by decide) (by decide) (by decide) (by decide))

-- ── C8 ─────────────────────────────────────────────────────────────────

/-- C8: offer creation fails with 404 when the trip request is missing
and with 409 when the trip request is not ACTIVE, when the driver is the
trip request's own rider, or when the driver already holds a PENDING or
ACCEPTED offer there; the same duplicate reaching the insert inside the
transaction (after a racing writer) is caught by the partial unique
index and also reported 409; and a fresh call (no idempotency mapping,
valid body) runs exactly these guards. -/
theorem c8_create_offer_guards (db : DB) (actor key trId : Nat) (p : OfferParams) :
    (findTR db trId = none → offerGuards db actor key trId p = (⟨404, none⟩, db)) ∧
    (∀ tr, findTR db trId = some tr → tr.status ≠ TRStatus.ACTIVE →
       offerGuards db actor key trId p = (⟨409, none⟩, db)) ∧
    (∀ tr, findTR db trId = some tr → tr.status = TRStatus.ACTIVE → tr.riderUserId = actor →
       offerGuards db actor key trId p = (⟨409, none⟩, db)) ∧
    (∀ tr, findTR db trId = some tr → tr.status = TRStatus.ACTIVE → tr.riderUserId ≠ actor →
       activeOfferExists db.offers trId actor = true →
       offerGuards db actor key trId p = (⟨409, none⟩, db)) ∧
    (∀ db2 rider, activeOfferExists db2.offers trId actor = true →
       offerTxn db2 actor key trId rider p = (⟨409, none⟩, db2)) ∧
    (∀ o ∈ db.offers, o.tripRequestId = trId → o.driverUserId = actor →
       (o.status = OfferStatus.PENDING ∨ o.status = OfferStatus.ACCEPTED) →
       activeOfferExists db.offers trId actor = true) ∧
    (findIdem db actor key EntityType.OFFER = none → validOfferParams p = true →
       createOffer db actor key trId p = offerGuards db actor key trId p) := by
  refine ⟨?_, ?_, ?_, ?_, ?_, ?_, ?_⟩
  · intro h
    unfold offerGuards
    simp [h]
  · intro tr h hSt
    unfold offerGuards
    simp [h, hSt]
  · intro tr h hSt hR
    unfold offerGuards
    simp [h, hSt, hR]
  · intro tr h hSt hR hAct
    unfold offerGuards
    simp [h, hSt, hR, hAct]
  · intro db2 rider hAct
    unfold offerTxn
    simp [hAct]
  · intro o hmem hTr hDr hNt
    unfold activeOfferExists
    rw [List.any_eq_true]
    exact ⟨o, hmem, by simp [hTr, hDr, hNt]⟩
  · intro hIdem hValid
    unfold createOffer
    simp [hIdem, hValid]

/-- Witness for C8 at a concrete snapshot: driver 20 already holds a
PENDING offer on trip request 1, so a second create conflicts. -/
theorem c8_create_offer_guards_witness :
    offerGuards ⟨[], [⟨1, 10, 0, 10, 2, TRStatus.ACTIVE⟩],
        [⟨2, 1, 20, 10, 3, 500, OfferStatus.PENDING⟩], [], [], 3⟩ 20 7 1 ⟨2, 300⟩ =
      (⟨409, none⟩,
       ⟨[], [⟨1, 10, 0, 10, 2, TRStatus.ACTIVE⟩],
        [⟨2, 1, 20, 10, 3, 500, OfferStatus.PENDING⟩], [], [], 3⟩) :=
  ((c8_create_offer_guards ⟨[], [⟨1, 10, 0, 10, 2, TRStatus.ACTIVE⟩],
      [⟨2, 1, 20, 10, 3, 500, OfferStatus.PENDING⟩], [], [], 3⟩ 20 7 1
      ⟨2, 300⟩).2.2.2.1 ⟨1, 10, 0, 10, 2, TRStatus.ACTIVE⟩
    (by decide) (by decide) (by decide) (by decide))

-- ── C3: replay lemmas ──────────────────────────────────────────────────

/-- A successful first CreateRide (201) makes its own replay a 200 fast
path: same entity id, unchanged store. -/
theorem rideReplay (db : DB) (a k : Nat) (p : RideParams)
    (h : (createRide db a k p).1.code = 201) :
    (createRide (createRide db a k p).2 a k p).1.code = 200 ∧
    ((createRide (createRide db a k p).2 a k p).1.body).map Ride.id =
      ((createRide db a k p).1.body).map Ride.id ∧
    (createRide (createRide db a k p).2 a k p).2 = (createRide db a k p).2 := by
  by_cases hv : validRideParams p
  · cases hf : findIdem db a k EntityType.RIDE with
    | some krow =>
      exfalso
      unfold createRide at h
      simp [hv, hf] at h
    | none =>
      have hf2 : db.idemKeys.find?
          (fun x => decide (x.userId = a ∧ x.key = k ∧ x.entityType = EntityType.RIDE)) =
          none := hf
      have hstep : createRide db a k p =
          (⟨201, some ⟨db.nextId, a, p.earliestDepartAt, p.latestDepartAt,
                       p.priceCents, p.seatsTotal, p.seatsTotal, RideStatus.ACTIVE⟩⟩,
           ⟨db.rides ++ [⟨db.nextId, a, p.earliestDepartAt, p.latestDepartAt,
                          p.priceCents, p.seatsTotal, p.seatsTotal, RideStatus.ACTIVE⟩],
            db.tripRequests, db.offers, db.bookings,
            db.idemKeys ++ [⟨db.nextId + 1, a, k, EntityType.RIDE, some db.nextId,
                             none, none, none⟩],
            db.nextId + 2⟩) := by
        unfold createRide rideCommit
        simp [hv, hf, hasIdem]
      rw [hstep]
      set dbN : DB :=
        ⟨db.rides ++ [⟨db.nextId, a, p.earliestDepartAt, p.latestDepartAt,
                       p.priceCents, p.seatsTotal, p.seatsTotal, RideStatus.ACTIVE⟩],
         db.tripRequests, db.offers, db.bookings,
         db.idemKeys ++ [⟨db.nextId + 1, a, k, EntityType.RIDE, some db.nextId,
                          none, none, none⟩],
         db.nextId + 2⟩ with hdbN
      have hfind2 : findIdem dbN a k EntityType.RIDE =
          some ⟨db.nextId + 1, a, k, EntityType.RIDE, some db.nextId, none, none, none⟩ := by
        rw [hdbN]
        unfold findIdem findIdemL
        rw [List.find?_append, hf2]
        simp
      have hrep : createRide dbN a k p = (⟨200, findRide dbN db.nextId⟩, dbN) := by
        unfold createRide
        rw [hfind2]
        simp [hv]
      have hfind3 : ∃ r', findRide dbN db.nextId = some r' ∧ r'.id = db.nextId := by
        rw [hdbN]
        unfold findRide
        rw [List.find?_append]
        cases hfr : db.rides.find? (fun r => decide (r.id = db.nextId)) with
        | some r0 => exact ⟨r0, rfl, by simpa using List.find?_some hfr⟩
        | none =>
          exact ⟨⟨db.nextId, a, p.earliestDepartAt, p.latestDepartAt,
                  p.priceCents, p.seatsTotal, p.seatsTotal, RideStatus.ACTIVE⟩, by simp, rfl⟩
      obtain ⟨r', hr', hid⟩ := hfind3
      rw [hrep, hr']
      exact ⟨rfl, by simp [hid], rfl⟩
  · exfalso
    unfold createRide at h
    simp [hv] at h

/-- Replay of CreateTripRequest against a fresh commit: the follow-up
call fast-paths to 200 with the same entity id and no state change. -/
theorem trCommitReplay (db0 : DB) (a k : Nat) (p : TRParams)
    (hv : validTRParams p = true)
    (hf : findIdem db0 a k EntityType.TRIP_REQUEST = none) :
    (createTripRequest (trCommit db0 a k p).2 a k p).1.code = 200 ∧
    ((createTripRequest (trCommit db0 a k p).2 a k p).1.body).map TripRequest.id =
      ((trCommit db0 a k p).1.body).map TripRequest.id ∧
    (createTripRequest (trCommit db0 a k p).2 a k p).2 = (trCommit db0 a k p).2 := by
  have hf2 : db0.idemKeys.find?
      (fun x => decide (x.userId = a ∧ x.key = k ∧
                        x.entityType = EntityType.TRIP_REQUEST)) = none := hf
  have hstep : trCommit db0 a k p =
      (⟨201, some ⟨db0.nextId, a, p.earliestDesiredAt, p.latestDesiredAt,
                   p.seatsNeeded, TRStatus.ACTIVE⟩⟩,
       ⟨db0.rides,
        db0.tripRequests ++ [⟨db0.nextId, a, p.earliestDesiredAt, p.latestDesiredAt,
                              p.seatsNeeded, TRStatus.ACTIVE⟩],
        db0.offers, db0.bookings,
        db0.idemKeys ++ [⟨db0.nextId + 1, a, k, EntityType.TRIP_REQUEST, none,
                          some db0.nextId, none, none⟩],
        db0.nextId + 2⟩) := by
    unfold trCommit
    simp [hf, hasIdem]
  rw [hstep]
  set dbN : DB :=
    ⟨db0.rides,
     db0.tripRequests ++ [⟨db0.nextId, a, p.earliestDesiredAt, p.latestDesiredAt,
                           p.seatsNeeded, TRStatus.ACTIVE⟩],
     db0.offers, db0.bookings,
     db0.idemKeys ++ [⟨db0.nextId + 1, a, k, EntityType.TRIP_REQUEST, none,
                       some db0.nextId, none, none⟩],
     db0.nextId + 2⟩ with hdbN
  have hfind2 : findIdem dbN a k EntityType.TRIP_REQUEST =
      some ⟨db0.nextId + 1, a, k, EntityType.TRIP_REQUEST, none,
            some db0.nextId, none, none⟩ := by
    rw [hdbN]
    unfold findIdem findIdemL
    rw [List.find?_append, hf2]
    simp
  have hfind3 : ∃ t', findTR dbN db0.nextId = some t' ∧ t'.id = db0.nextId := by
    rw [hdbN]
    unfold findTR
    rw [List.find?_append]
    cases hfr : db0.tripRequests.find? (fun t => decide (t.id = db0.nextId)) with
    | some t0 => exact ⟨t0, rfl, by simpa using List.find?_some hfr⟩
    | none =>
      exact ⟨⟨db0.nextId, a, p.earliestDesiredAt, p.latestDesiredAt,
              p.seatsNeeded, TRStatus.ACTIVE⟩, by simp, rfl⟩
  obtain ⟨t', ht', hid⟩ := hfind3
  have hrep : createTripRequest dbN a k p = (⟨200, some t'⟩, dbN) := by
    unfold createTripRequest
    rw [hfind2]
    simp [hv, ht']
  rw [hrep]
  exact ⟨rfl, by simp [hid], rfl⟩

/-- Inversion of a 201 from CreateTripRequest: the call was a fresh
commit against some snapshot (the input, or the input with a corrupted
mapping deleted) holding no record of the triple. -/
theorem createTR_201_inv (db : DB) (a k : Nat) (p : TRParams)
    (h : (createTripRequest db a k p).1.code = 201) :
    ∃ db0, createTripRequest db a k p = trCommit db0 a k p ∧
      validTRParams p = true ∧ findIdem db0 a k EntityType.TRIP_REQUEST = none := by
  by_cases hv : validTRParams p
  · cases hfm : findIdem db a k EntityType.TRIP_REQUEST with
    | none =>
      exact ⟨db, by unfold createTripRequest; simp [hv, hfm], hv, hfm⟩
    | some krow =>
      cases hb : krow.tripRequestId.bind (findTR db) with
      | some tr =>
        exfalso
        unfold createTripRequest at h
        simp [hv, hfm, hb] at h
      | none =>
        set db1 : DB :=
          { db with idemKeys := db.idemKeys.filter (fun x => decide (x.id ≠ krow.id)) }
          with hdb1
        have heq : createTripRequest db a k p = trCommit db1 a k p := by
          unfold createTripRequest
          simp [hv, hfm, hb, hdb1]
        refine ⟨db1, heq, hv, ?_⟩
        rw [heq] at h
        unfold trCommit at h
        cases hh : hasIdem db1 a k EntityType.TRIP_REQUEST with
        | true =>
          exfalso
          rw [hh] at h
          simp only [if_true] at h
          split at h <;> simp at h
        | false =>
          unfold hasIdem at hh
          exact Option.not_isSome_iff_eq_none.mp (by simp [hh])
  · exfalso
    unfold createTripRequest at h
    simp [hv] at h

/-- A successful first CreateTripRequest (201) makes its own replay a
200 fast path: same entity id, unchanged store. -/
theorem trReplay (db : DB) (a k : Nat) (p : TRParams)
    (h : (createTripRequest db a k p).1.code = 201) :
    (createTripRequest (createTripRequest db a k p).2 a k p).1.code = 200 ∧
    ((createTripRequest (createTripRequest db a k p).2 a k p).1.body).map TripRequest.id =
      ((createTripRequest db a k p).1.body).map TripRequest.id ∧
    (createTripRequest (createTripRequest db a k p).2 a k p).2 =
      (createTripRequest db a k p).2 := by
  obtain ⟨db0, heq, hv, hf⟩ := createTR_201_inv db a k p h
  rw [heq]
  exact trCommitReplay db0 a k p hv hf

/-- Inversion of a 201 from the offer transaction: the partial unique
index and the idempotency triple were both clear. -/
theorem offerTxn_201_inv (db0 : DB) (a k trId rider : Nat) (p : OfferParams)
    (h : (offerTxn db0 a k trId rider p).1.code = 201) :
    findIdem db0 a k EntityType.OFFER = none ∧
    activeOfferExists db0.offers trId a = false := by
  unfold offerTxn at h
  cases hAct : activeOfferExists db0.offers trId a with
  | true =>
    exfalso
    rw [hAct] at h
    simp at h
  | false =>
    refine ⟨?_, rfl⟩
    rw [hAct] at h
    simp only [Bool.false_eq_true, if_false] at h
    cases hh : hasIdem db0 a k EntityType.OFFER with
    | true =>
      exfalso
      rw [hh] at h
      simp only [if_true] at h
      split at h <;> simp at h
    | false =>
      unfold hasIdem at hh
      exact Option.not_isSome_iff_eq_none.mp (by simp [hh])

/-- Replay of CreateOffer against a fresh commit. -/
theorem offerTxnReplay (db0 : DB) (a k trId rider : Nat) (p : OfferParams)
    (hv : validOfferParams p = true)
    (hf : findIdem db0 a k EntityType.OFFER = none)
    (hAct : activeOfferExists db0.offers trId a = false) :
    (createOffer (offerTxn db0 a k trId rider p).2 a k trId p).1.code = 200 ∧
    ((createOffer (offerTxn db0 a k trId rider p).2 a k trId p).1.body).map Offer.id =
      ((offerTxn db0 a k trId rider p).1.body).map Offer.id ∧
    (createOffer (offerTxn db0 a k trId rider p).2 a k trId p).2 =
      (offerTxn db0 a k trId rider p).2 := by
  have hf2 : db0.idemKeys.find?
      (fun x => decide (x.userId = a ∧ x.key = k ∧
                        x.entityType = EntityType.OFFER)) = none := hf
  have hstep : offerTxn db0 a k trId rider p =
      (⟨201, some ⟨db0.nextId, trId, a, rider, p.seatsOffered, p.priceCents,
                   OfferStatus.PENDING⟩⟩,
       ⟨db0.rides, db0.tripRequests,
        db0.offers ++ [⟨db0.nextId, trId, a, rider, p.seatsOffered, p.priceCents,
                        OfferStatus.PENDING⟩],
        db0.bookings,
        db0.idemKeys ++ [⟨db0.nextId + 1, a, k, EntityType.OFFER, none, none,
                          some db0.nextId, none⟩],
        db0.nextId + 2⟩) := by
    unfold offerTxn
    simp [hAct, hf, hasIdem]
  rw [hstep]
  set dbN : DB :=
    ⟨db0.rides, db0.tripRequests,
     db0.offers ++ [⟨db0.nextId, trId, a, rider, p.seatsOffered, p.priceCents,
                     OfferStatus.PENDING⟩],
     db0.bookings,
     db0.idemKeys ++ [⟨db0.nextId + 1, a, k, EntityType.OFFER, none, none,
                       some db0.nextId, none⟩],
     db0.nextId + 2⟩ with hdbN
  have hfind2 : findIdem dbN a k EntityType.OFFER =
      some ⟨db0.nextId + 1, a, k, EntityType.OFFER, none, none,
            some db0.nextId, none⟩ := by
    rw [hdbN]
    unfold findIdem findIdemL
    rw [List.find?_append, hf2]
    simp
  have hfind3 : ∃ o', findOffer dbN db0.nextId = some o' ∧ o'.id = db0.nextId := by
    rw [hdbN]
    unfold findOffer
    rw [List.find?_append]
    cases hfr : db0.offers.find? (fun o => decide (o.id = db0.nextId)) with
    | some o0 => exact ⟨o0, rfl, by simpa using List.find?_some hfr⟩
    | none =>
      exact ⟨⟨db0.nextId, trId, a, rider, p.seatsOffered, p.priceCents,
              OfferStatus.PENDING⟩, by simp, rfl⟩
  obtain ⟨o', ho', hid⟩ := hfind3
  have hrep : createOffer dbN a k trId p = (⟨200, some o'⟩, dbN) := by
    unfold createOffer
    rw [hfind2]
    simp [hv, ho']
  rw [hrep]
  exact ⟨rfl, by simp [hid], rfl⟩

/-- Inversion of a 201 from the offer guards: the trip request was found
ACTIVE, not self-owned, and the transaction was entered cleanly. -/
theorem offerGuards_201_inv (db0 : DB) (a k trId : Nat) (p : OfferParams)
    (h : (offerGuards db0 a k trId p).1.code = 201) :
    ∃ rider, offerGuards db0 a k trId p = offerTxn db0 a k trId rider p ∧
      findIdem db0 a k EntityType.OFFER = none ∧
      activeOfferExists db0.offers trId a = false := by
  unfold offerGuards at h
  cases htr : findTR db0 trId with
  | none =>
    exfalso
    rw [htr] at h
    simp at h
  | some tr =>
    simp only [htr] at h
    by_cases h1 : tr.status ≠ TRStatus.ACTIVE
    · exfalso
      rw [if_pos h1] at h
      simp at h
    · rw [if_neg h1] at h
      by_cases h2 : tr.riderUserId = a
      · exfalso
        rw [if_pos h2] at h
        simp at h
      · rw [if_neg h2] at h
        cases hAct : activeOfferExists db0.offers trId a with
        | true =>
          exfalso
          rw [hAct] at h
          simp at h
        | false =>
          rw [hAct] at h
          simp only [Bool.false_eq_true, if_false] at h
          refine ⟨tr.riderUserId, ?_,
            (offerTxn_201_inv db0 a k trId tr.riderUserId p h).1, rfl⟩
          unfold offerGuards
          simp [htr, h1, h2, hAct]

/-- A successful first CreateOffer (201) makes its own replay a 200 fast
path: same entity id, unchanged store. -/
theorem offerReplay (db : DB) (a k trId : Nat) (p : OfferParams)
    (h : (createOffer db a k trId p).1.code = 201) :
    (createOffer (createOffer db a k trId p).2 a k trId p).1.code = 200 ∧
    ((createOffer (createOffer db a k trId p).2 a k trId p).1.body).map Offer.id =
      ((createOffer db a k trId p).1.body).map Offer.id ∧
    (createOffer (createOffer db a k trId p).2 a k trId p).2 =
      (createOffer db a k trId p).2 := by
  by_cases hv : validOfferParams p
  · cases hfm : findIdem db a k EntityType.OFFER with
    | none =>
      have heq : createOffer db a k trId p = offerGuards db a k trId p := by
        unfold createOffer
        simp [hv, hfm]
      rw [heq] at h ⊢
      obtain ⟨rider, heq2, hf0, hAct⟩ := offerGuards_201_inv db a k trId p h
      rw [heq2]
      exact offerTxnReplay db a k trId rider p hv hf0 hAct
    | some krow =>
      cases hb : krow.offerId.bind (findOffer db) with
      | some o =>
        exfalso
        unfold createOffer at h
        simp [hv, hfm, hb] at h
      | none =>
        set db1 : DB :=
          { db with idemKeys := db.idemKeys.filter (fun x => decide (x.id ≠ krow.id)) }
          with hdb1
        have heq : createOffer db a k trId p = offerGuards db1 a k trId p := by
          unfold createOffer
          simp [hv, hfm, hb, hdb1]
        rw [heq] at h ⊢
        obtain ⟨rider, heq2, hf0, hAct⟩ := offerGuards_201_inv db1 a k trId p h
        rw [heq2]
        exact offerTxnReplay db1 a k trId rider p hv hf0 hAct
  · exfalso
    unfold createOffer at h
    simp [hv] at h

/-- Inversion of a 201 from the booking transaction: the decrement hit a
row, the CONFIRMED-booking index was clear, and so was the idempotency
triple. -/
theorem bookingTxn_201_inv (db0 : DB) (a k rid : Nat) (s n : Int)
    (h : (bookingTxn db0 a k rid s n).1.code = 201) :
    ¬ (db0.rides.filter (fun r => rideBookCond r rid s n)).length = 0 ∧
    confirmedBookingExists db0.bookings rid a = false ∧
    findIdem db0 a k EntityType.BOOKING = none := by
  unfold bookingTxn at h
  by_cases h1 : (db0.rides.filter (fun r => rideBookCond r rid s n)).length = 0
  · exfalso
    rw [if_pos h1] at h
    split at h
    · simp at h
    · split_ifs at h <;> simp at h
  · rw [if_neg h1] at h
    cases h2 : confirmedBookingExists db0.bookings rid a with
    | true =>
      exfalso
      rw [h2] at h
      simp at h
    | false =>
      rw [h2] at h
      simp only [Bool.false_eq_true, if_false] at h
      cases hh : hasIdem db0 a k EntityType.BOOKING with
      | true =>
        exfalso
        rw [hh] at h
        simp only [if_true] at h
        split at h <;> simp at h
      | false =>
        refine ⟨h1, rfl, ?_⟩
        unfold hasIdem at hh
        exact Option.not_isSome_iff_eq_none.mp (by simp [hh])

/-- A successful first CreateBooking (201) makes its own replay a 200
fast path: same entity id, unchanged store. -/
theorem bookingReplay (db : DB) (a k rid : Nat) (s n : Int)
    (h : (createBooking db a k rid s n).1.code = 201) :
    (createBooking (createBooking db a k rid s n).2 a k rid s n).1.code = 200 ∧
    ((createBooking (createBooking db a k rid s n).2 a k rid s n).1.body).map Booking.id =
      ((createBooking db a k rid s n).1.body).map Booking.id ∧
    (createBooking (createBooking db a k rid s n).2 a k rid s n).2 =
      (createBooking db a k rid s n).2 := by
  by_cases hs : s < 1 ∨ 8 < s
  · exfalso
    unfold createBooking at h
    simp [hs] at h
  · cases hfm : findIdem db a k EntityType.BOOKING with
    | some krow =>
      exfalso
      cases hb : krow.bookingId.bind (findBooking db) with
      | some b =>
        unfold createBooking at h
        simp [hs, hfm, hb] at h
      | none =>
        have heq : createBooking db a k rid s n = bookingTxn db a k rid s n := by
          unfold createBooking
          simp [hs, hfm, hb]
        rw [heq] at h
        have hinv := bookingTxn_201_inv db a k rid s n h
        rw [hinv.2.2] at hfm
        simp at hfm
    | none =>
      have heq : createBooking db a k rid s n = bookingTxn db a k rid s n := by
        unfold createBooking
        simp [hs, hfm]
      rw [heq] at h ⊢
      obtain ⟨h1, h2, hfn⟩ := bookingTxn_201_inv db a k rid s n h
      have hf2 : db.idemKeys.find?
          (fun x => decide (x.userId = a ∧ x.key = k ∧
                            x.entityType = EntityType.BOOKING)) = none := hfn
      have hstep : bookingTxn db a k rid s n =
          (⟨201, some ⟨db.nextId, some rid, none, none, a, s, none,
                       BookingStatus.CONFIRMED⟩, none⟩,
           ⟨decrementRides db.rides rid s n, db.tripRequests, db.offers,
            db.bookings ++ [⟨db.nextId, some rid, none, none, a, s, none,
                             BookingStatus.CONFIRMED⟩],
            db.idemKeys ++ [⟨db.nextId + 1, a, k, EntityType.BOOKING, none, none,
                             none, some db.nextId⟩],
            db.nextId + 2⟩) := by
        unfold bookingTxn
        simp [h1, h2, hfn, hasIdem]
      rw [hstep]
      set dbN : DB :=
        ⟨decrementRides db.rides rid s n, db.tripRequests, db.offers,
         db.bookings ++ [⟨db.nextId, some rid, none, none, a, s, none,
                          BookingStatus.CONFIRMED⟩],
         db.idemKeys ++ [⟨db.nextId + 1, a, k, EntityType.BOOKING, none, none,
                          none, some db.nextId⟩],
         db.nextId + 2⟩ with hdbN
      have hfind2 : findIdem dbN a k EntityType.BOOKING =
          some ⟨db.nextId + 1, a, k, EntityType.BOOKING, none, none,
                none, some db.nextId⟩ := by
        rw [hdbN]
        unfold findIdem findIdemL
        rw [List.find?_append, hf2]
        simp
      have hfind3 : ∃ b', findBooking dbN db.nextId = some b' ∧ b'.id = db.nextId := by
        rw [hdbN]
        unfold findBooking
        rw [List.find?_append]
        cases hfr : db.bookings.find? (fun b => decide (b.id = db.nextId)) with
        | some b0 => exact ⟨b0, rfl, by simpa using List.find?_some hfr⟩
        | none =>
          exact ⟨⟨db.nextId, some rid, none, none, a, s, none,
                  BookingStatus.CONFIRMED⟩, by simp, rfl⟩
      obtain ⟨b', hb', hid⟩ := hfind3
      have hrep : createBooking dbN a k rid s n = (⟨200, some b', none⟩, dbN) := by
        unfold createBooking
        rw [hfind2]
        simp [hs, hb']
      rw [hrep]
      exact ⟨rfl, by simp [hid], rfl⟩

-- ── C3 ─────────────────────────────────────────────────────────────────

/-- C3: for each of the four create operations, when a first call
succeeds (201 Created), calling it again with the same actor and
idempotency key answers 200 with a body carrying the identical entity
id, and leaves the store exactly as it was after the first call — no
second row, no error. -/
theorem c3_idempotent_replay :
    (∀ db a k p, (createRide db a k p).1.code = 201 →
       (createRide (createRide db a k p).2 a k p).1.code = 200 ∧
       ((createRide (createRide db a k p).2 a k p).1.body).map Ride.id =
         ((createRide db a k p).1.body).map Ride.id ∧
       (createRide (createRide db a k p).2 a k p).2 = (createRide db a k p).2) ∧
    (∀ db a k p, (createTripRequest db a k p).1.code = 201 →
       (createTripRequest (createTripRequest db a k p).2 a k p).1.code = 200 ∧
       ((createTripRequest (createTripRequest db a k p).2 a k p).1.body).map TripRequest.id =
         ((createTripRequest db a k p).1.body).map TripRequest.id ∧
       (createTripRequest (createTripRequest db a k p).2 a k p).2 =
         (createTripRequest db a k p).2) ∧
    (∀ db a k trId p, (createOffer db a k trId p).1.code = 201 →
       (createOffer (createOffer db a k trId p).2 a k trId p).1.code = 200 ∧
       ((createOffer (createOffer db a k trId p).2 a k trId p).1.body).map Offer.id =
         ((createOffer db a k trId p).1.body).map Offer.id ∧
       (createOffer (createOffer db a k trId p).2 a k trId p).2 =
         (createOffer db a k trId p).2) ∧
    (∀ db a k rid s n, (createBooking db a k rid s n).1.code = 201 →
       (createBooking (createBooking db a k rid s n).2 a k rid s n).1.code = 200 ∧
       ((createBooking (createBooking db a k rid s n).2 a k rid s n).1.body).map Booking.id =
         ((createBooking db a k rid s n).1.body).map Booking.id ∧
       (createBooking (createBooking db a k rid s n).2 a k rid s n).2 =
         (createBooking db a k rid s n).2) :=
  ⟨fun db a k p h => rideReplay db a k p h,
   fun db a k p h => trReplay db a k p h,
   fun db a k trId p h => offerReplay db a k trId p h,
   fun db a k rid s n h => bookingReplay db a k rid s n h⟩

/-- Witness for C3: a ride created against the empty store replays with
200 and the same id. -/
theorem c3_idempotent_replay_witness :
    (createRide (createRide ⟨[], [], [], [], [], 0⟩ 1 5 ⟨0, 5, 100, 4⟩).2
        1 5 ⟨0, 5, 100, 4⟩).1.code = 200 :=
  (c3_idempotent_replay.1 ⟨[], [], [], [], [], 0⟩ 1 5 ⟨0, 5, 100, 4⟩ (by decide)).1

-- ── C4 ─────────────────────────────────────────────────────────────────

/-- Counterexample to C4 as stated: on POST /api/rides, a lookup that
finds an idempotency record whose linked ride is missing (record 0
points at ride 99, which does not exist) neither deletes the record nor
proceeds on the Fresh path — the route answers 200 with an empty body
and leaves the store, corrupted record included, untouched. -/
theorem c4_corrupted_record_counterexample :
    createRide ⟨[], [], [], [],
        [⟨0, 1, 5, EntityType.RIDE, some 99, none, none, none⟩], 7⟩
        1 5 ⟨0, 5, 100, 4⟩ =
      (⟨200, none⟩,
       ⟨[], [], [], [],
        [⟨0, 1, 5, EntityType.RIDE, some 99, none, none, none⟩], 7⟩) := by
  decide

/-- C4 (amended): only CreateTripRequest and CreateOffer delete a
corrupted idempotency record and proceed on the Fresh path; CreateRide
replays the corrupted mapping as 200 with an empty body without deleting
it; CreateBooking neither deletes nor replays it — the call falls into
the transaction and surfaces an error (404, 409 or 500) while the
record remains. -/
theorem c4_corruption_handling_amended :
    (∀ db a k (p : TRParams) krow, validTRParams p = true →
       findIdem db a k EntityType.TRIP_REQUEST = some krow →
       krow.tripRequestId.bind (findTR db) = none →
       createTripRequest db a k p =
         trCommit { db with idemKeys :=
             db.idemKeys.filter (fun x => decide (x.id ≠ krow.id)) } a k p ∧
       (hasIdem { db with idemKeys :=
             db.idemKeys.filter (fun x => decide (x.id ≠ krow.id)) } a k
             EntityType.TRIP_REQUEST = false →
          (createTripRequest db a k p).1.code = 201)) ∧
    (∀ db a k trId (p : OfferParams) krow, validOfferParams p = true →
       findIdem db a k EntityType.OFFER = some krow →
       krow.offerId.bind (findOffer db) = none →
       createOffer db a k trId p =
         offerGuards { db with idemKeys :=
             db.idemKeys.filter (fun x => decide (x.id ≠ krow.id)) } a k trId p) ∧
    (∀ db a k (p : RideParams) krow, validRideParams p = true →
       findIdem db a k EntityType.RIDE = some krow →
       createRide db a k p = (⟨200, krow.rideId.bind (findRide db)⟩, db)) ∧
    (∀ db a k rid (s n : Int) krow, ¬ (s < 1 ∨ 8 < s) →
       findIdem db a k EntityType.BOOKING = some krow →
       krow.bookingId.bind (findBooking db) = none →
       (createBooking db a k rid s n).2 = db ∧
       ((createBooking db a k rid s n).1.code = 404 ∨
        (createBooking db a k rid s n).1.code = 409 ∨
        (createBooking db a k rid s n).1.code = 500)) := by
  refine ⟨?_, ?_, ?_, ?_⟩
  · intro db a k p krow hv hfm hb
    have heq : createTripRequest db a k p =
        trCommit { db with idemKeys :=
            db.idemKeys.filter (fun x => decide (x.id ≠ krow.id)) } a k p := by
      unfold createTripRequest
      simp [hv, hfm, hb]
    refine ⟨heq, ?_⟩
    intro hFresh
    rw [heq]
    unfold trCommit
    rw [hFresh]
    simp
  · intro db a k trId p krow hv hfm hb
    unfold createOffer
    simp [hv, hfm, hb]
  · intro db a k p krow hv hfm
    unfold createRide
    simp [hv, hfm]
  · intro db a k rid s n krow hs hfm hb
    have heq : createBooking db a k rid s n = bookingTxn db a k rid s n := by
      unfold createBooking
      simp [hs, hfm, hb]
    have hhas : hasIdem db a k EntityType.BOOKING = true := by
      simp [hasIdem, hfm]
    have hread : (findIdem db a k EntityType.BOOKING).bind
        (fun kr => kr.bookingId.bind (findBooking db)) = none := by
      rw [hfm]
      simpa using hb
    rw [heq]
    unfold bookingTxn
    by_cases h1 : (db.rides.filter (fun r => rideBookCond r rid s n)).length = 0
    · rw [if_pos h1]
      split
      · exact ⟨rfl, Or.inl rfl⟩
      · split_ifs
        · exact ⟨rfl, Or.inr (Or.inl rfl)⟩
        · exact ⟨rfl, Or.inr (Or.inl rfl)⟩
        · exact ⟨rfl, Or.inr (Or.inl rfl)⟩
        · exact ⟨rfl, Or.inr (Or.inr rfl)⟩
    · rw [if_neg h1]
      cases h2 : confirmedBookingExists db.bookings rid a with
      | true =>
        rw [if_pos rfl]
        exact ⟨rfl, Or.inr (Or.inl rfl)⟩
      | false =>
        simp only [Bool.false_eq_true, if_false]
        rw [hhas, if_pos rfl, hread]
        exact ⟨rfl, Or.inr (Or.inl rfl)⟩

/-- Witness for C4 (amended): a corrupted TRIP_REQUEST record (entity 99
missing) is cleaned up and the retry creates trip request 7 with 201. -/
theorem c4_corruption_handling_amended_witness :
    (createTripRequest ⟨[], [], [], [],
        [⟨0, 1, 5, EntityType.TRIP_REQUEST, none, some 99, none, none⟩], 7⟩
        1 5 ⟨0, 5, 2⟩).1.code = 201 :=
  (c4_corruption_handling_amended.1 ⟨[], [], [], [],
      [⟨0, 1, 5, EntityType.TRIP_REQUEST, none, some 99, none, none⟩], 7⟩
    1 5 ⟨0, 5, 2⟩ ⟨0, 1, 5, EntityType.TRIP_REQUEST, none, some 99, none, none⟩
    (by decide) (by decide) (by decide)).2 (by decide)

-- ── C9 ─────────────────────────────────────────────────────────────────

/-- C9: browse pagination.  The limit defaults to 20 when absent and any
value outside 1..50 is rejected; ride and trip-request listings come out
sorted by (earliest time ascending, id ascending); and under a cursor
every returned item lies strictly after the cursor's (timestamp, id)
pair in that order. -/
theorem c9_browse_pagination :
    parseLimit none = some 20 ∧
    (∀ n, n < 1 ∨ 50 < n → parseLimit (some n) = none) ∧
    (∀ n, 1 ≤ n → n ≤ 50 → parseLimit (some n) = some n) ∧
    (∀ db now c limit, List.Sorted rideLe (listRides db now c limit)) ∧
    (∀ db now ct ci limit r, r ∈ listRides db now (some (ct, ci)) limit →
       ct < r.earliestDepartAt ∨ (r.earliestDepartAt = ct ∧ ci < r.id)) ∧
    (∀ db now c limit, List.Sorted trLe (listTripRequests db now c limit)) ∧
    (∀ db now ct ci limit t, t ∈ listTripRequests db now (some (ct, ci)) limit →
       ct < t.earliestDesiredAt ∨ (t.earliestDesiredAt = ct ∧ ci < t.id)) := by
  refine ⟨rfl, ?_, ?_, ?_, ?_, ?_, ?_⟩
  · intro n h
    show (if n < 1 then none else if 50 < n then none else some n) = none
    split_ifs <;> first | rfl | omega
  · intro n h1 h2
    show (if n < 1 then none else if 50 < n then none else some n) = some n
    split_ifs <;> first | rfl | omega
  · intro db now c limit
    exact (List.sorted_insertionSort rideLe
      (db.rides.filter (rideBrowseCond now c))).sublist
      (List.take_sublist limit _)
  · intro db now ct ci limit r hmem
    unfold listRides at hmem
    have h1 := List.mem_of_mem_take hmem
    rw [(List.perm_insertionSort rideLe _).mem_iff] at h1
    have h2 := (List.mem_filter.mp h1).2
    unfold rideBrowseCond afterCursor at h2
    have h3 := (Bool.and_eq_true _ _).mp h2
    exact of_decide_eq_true h3.2
  · intro db now c limit
    exact (List.sorted_insertionSort trLe
      (db.tripRequests.filter (trBrowseCond now c))).sublist
      (List.take_sublist limit _)
  · intro db now ct ci limit t hmem
    unfold listTripRequests at hmem
    have h1 := List.mem_of_mem_take hmem
    rw [(List.perm_insertionSort trLe _).mem_iff] at h1
    have h2 := (List.mem_filter.mp h1).2
    unfold trBrowseCond afterCursor at h2
    have h3 := (Bool.and_eq_true _ _).mp h2
    exact of_decide_eq_true h3.2

/-- Witness for C9 at concrete inputs: out-of-range limits are rejected,
an in-range limit is kept. -/
theorem c9_browse_pagination_witness :
    parseLimit (some 0) = none ∧ parseLimit (some 51) = none ∧
    parseLimit (some 35) = some 35 :=
  ⟨c9_browse_pagination.2.1 0 (by decide),
   c9_browse_pagination.2.1 51 (by decide),
   c9_browse_pagination.2.2.1 35 (by decide) (by decide)⟩

-- ── C2: bookkeeping lemmas ─────────────────────────────────────────────

theorem seatContrib_nonneg {rid : Nat} {b : Booking} (h : 0 < b.seatsBooked) :
    0 ≤ seatContrib rid b := by
  unfold seatContrib
  split <;> omega

theorem bookedSum_nonneg {bs : List Booking} {rid : Nat}
    (h : ∀ b ∈ bs, 0 < b.seatsBooked) : 0 ≤ bookedSum bs rid :=
  List.sum_nonneg (by
    intro x hx
    obtain ⟨b, hb, rfl⟩ := List.mem_map.mp hx
    exact seatContrib_nonneg (h b hb))

theorem bookedSum_append (bs : List Booking) (b : Booking) (rid : Nat) :
    bookedSum (bs ++ [b]) rid = bookedSum bs rid + seatContrib rid b := by
  unfold bookedSum
  rw [List.map_append, List.sum_append]
  simp

theorem bookedSum_map (bs : List Booking) (f : Booking → Booking) (rid : Nat) :
    bookedSum (bs.map f) rid = (bs.map (fun b => seatContrib rid (f b))).sum := by
  unfold bookedSum
  rw [List.map_map]
  rfl

theorem bookedSum_map_le {bs : List Booking} {f : Booking → Booking} {rid : Nat}
    (h : ∀ b ∈ bs, seatContrib rid (f b) ≤ seatContrib rid b) :
    bookedSum (bs.map f) rid ≤ bookedSum bs rid := by
  rw [bookedSum_map]
  exact List.sum_le_sum h

/-- Cancelling one identified contributor drops the sum by at least its
contribution. -/
theorem sum_cancel_le {bs : List Booking} {g h : Booking → Int} {b0 : Booking}
    (hmem : b0 ∈ bs) (h0 : h b0 = 0)
    (hpt : ∀ b ∈ bs, h b ≤ g b) (hnn : ∀ b ∈ bs, 0 ≤ g b) :
    (bs.map h).sum ≤ (bs.map g).sum - g b0 := by
  induction bs with
  | nil => cases hmem
  | cons c cs ih =>
    rcases List.mem_cons.mp hmem with hc | hc
    · subst hc
      have hle : (cs.map h).sum ≤ (cs.map g).sum :=
        List.sum_le_sum (fun b hb => hpt b (List.mem_cons_of_mem _ hb))
      simp only [List.map_cons, List.sum_cons, h0]
      omega
    · have ihh := ih hc (fun b hb => hpt b (List.mem_cons_of_mem _ hb))
        (fun b hb => hnn b (List.mem_cons_of_mem _ hb))
      have hc0 : h c ≤ g c := hpt c (List.mem_cons_self _ _)
      simp only [List.map_cons, List.sum_cons]
      omega

theorem offerStatusUpd_seats (oid : Nat) (st : OfferStatus) (o : Offer) :
    (offerStatusUpd oid st o).seatsOffered = o.seatsOffered := by
  unfold offerStatusUpd
  split <;> rfl

theorem loserUpd_seats (trId oid : Nat) (o : Offer) :
    (loserUpd trId oid o).seatsOffered = o.seatsOffered := by
  unfold loserUpd
  split <;> rfl

theorem trBookingUpd_seats (trId : Nat) (b : Booking) :
    (trBookingUpd trId b).seatsBooked = b.seatsBooked := by
  unfold trBookingUpd
  split <;> rfl

theorem trBookingUpd_rideId (trId : Nat) (b : Booking) :
    (trBookingUpd trId b).rideId = b.rideId := by
  unfold trBookingUpd
  split <;> rfl

theorem trBookingUpd_contrib_le (trId rid : Nat) (b : Booking)
    (h : 0 < b.seatsBooked) :
    seatContrib rid (trBookingUpd trId b) ≤ seatContrib rid b := by
  unfold trBookingUpd seatContrib
  split_ifs <;> simp_all
  all_goals omega

theorem bookingStatusUpd_seats (bid : Nat) (st : BookingStatus) (b : Booking) :
    (bookingStatusUpd bid st b).seatsBooked = b.seatsBooked := by
  unfold bookingStatusUpd
  split <;> rfl

theorem bookingStatusUpd_rideId (bid : Nat) (st : BookingStatus) (b : Booking) :
    (bookingStatusUpd bid st b).rideId = b.rideId := by
  unfold bookingStatusUpd
  split <;> rfl

theorem cancelUpd_contrib_le (bid rid : Nat) (b : Booking)
    (h : 0 < b.seatsBooked) :
    seatContrib rid (bookingStatusUpd bid BookingStatus.CANCELLED b) ≤ seatContrib rid b := by
  unfold bookingStatusUpd seatContrib
  split_ifs <;> simp_all
  all_goals omega

theorem decrUpd_id (rid : Nat) (seats now : Int) (r : Ride) :
    (decrUpd rid seats now r).id = r.id := by
  unfold decrUpd
  split <;> rfl

theorem incrUpd_id (rid : Nat) (n : Int) (r : Ride) :
    (incrUpd rid n r).id = r.id := by
  unfold incrUpd
  split <;> rfl

theorem map_ids_pres {f : Ride → Ride} (hf : ∀ r, (f r).id = r.id) (rs : List Ride) :
    (rs.map f).map Ride.id = rs.map Ride.id := by
  rw [List.map_map]
  exact List.map_congr_left (fun a _ => hf a)

/-- Invariance under operations that touch neither rides, bookings nor
offers and do not decrease `nextId`. -/
theorem Inv_mono {db db' : DB} (hr : db'.rides = db.rides)
    (hb : db'.bookings = db.bookings) (ho : db'.offers = db.offers)
    (hn : db.nextId ≤ db'.nextId) (h : Inv db) : Inv db' := by
  obtain ⟨h1, h2, h3, h4, h5, h6⟩ := h
  refine ⟨?_, ?_, ?_, ?_, ?_, ?_⟩
  · rw [hb]; exact h1
  · rw [ho]; exact h2
  · rw [hr]; exact fun r hr2 => lt_of_lt_of_le (h3 r hr2) hn
  · rw [hb]; exact fun b hb2 rid hrid => lt_of_lt_of_le (h4 b hb2 rid hrid) hn
  · rw [hr]; exact h5
  · rw [hr, hb]; exact h6

theorem bookedSum_eq_zero {bs : List Booking} {rid : Nat}
    (h : ∀ b ∈ bs, seatContrib rid b = 0) : bookedSum bs rid = 0 := by
  unfold bookedSum
  apply List.sum_eq_zero
  intro x hx
  obtain ⟨b, hb, rfl⟩ := List.mem_map.mp hx
  exact h b hb

/-- CreateTripRequest touches only trip requests and the ledger, so the
seat invariant survives. -/
theorem Inv_createTripRequest (db : DB) (a k : Nat) (p : TRParams) (h : Inv db) :
    Inv (createTripRequest db a k p).2 := by
  have hcommit : ∀ db0 : DB, db0.rides = db.rides → db0.bookings = db.bookings →
      db0.offers = db.offers → db.nextId ≤ db0.nextId →
      Inv (trCommit db0 a k p).2 := by
    intro db0 hr hb ho hn
    unfold trCommit
    split
    · split
      · exact Inv_mono hr hb ho hn h
      · exact Inv_mono hr hb ho hn h
    · exact Inv_mono hr hb ho (le_trans hn (Nat.le_add_right _ 2)) h
  unfold createTripRequest
  split
  · exact h
  · split
    · split
      · exact h
      · exact hcommit _ rfl rfl rfl (le_refl _)
    · exact hcommit _ rfl rfl rfl (le_refl _)

/-- CreateRide preserves the invariant: a fresh ride starts with
`seatsAvailable = seatsTotal`, a fresh id, and no booking counted
against it. -/
theorem Inv_createRide (db : DB) (a k : Nat) (p : RideParams) (h : Inv db) :
    Inv (createRide db a k p).2 := by
  by_cases hv : validRideParams p = true
  · cases hf : findIdem db a k EntityType.RIDE with
    | some krow =>
      have heq : (createRide db a k p).2 = db := by
        unfold createRide
        simp [hv, hf]
      rw [heq]
      exact h
    | none =>
      have hhas : hasIdem db a k EntityType.RIDE = false := by
        simp [hasIdem, hf]
      have heq : (createRide db a k p).2 =
          ⟨db.rides ++ [⟨db.nextId, a, p.earliestDepartAt, p.latestDepartAt,
                         p.priceCents, p.seatsTotal, p.seatsTotal, RideStatus.ACTIVE⟩],
           db.tripRequests, db.offers, db.bookings,
           db.idemKeys ++ [⟨db.nextId + 1, a, k, EntityType.RIDE, some db.nextId,
                            none, none, none⟩],
           db.nextId + 2⟩ := by
        unfold createRide rideCommit
        simp [hv, hf, hhas]
      rw [heq]
      unfold Inv
      dsimp only
      obtain ⟨h1, h2, h3, h4, h5, h6⟩ := h
      have hseats : 1 ≤ p.seatsTotal := (of_decide_eq_true hv).2.2.1
      refine ⟨h1, h2, ?_, ?_, ?_, ?_⟩
      · intro r hr
        rcases List.mem_append.mp hr with hr | hr
        · exact lt_trans (h3 r hr) (by omega)
        · rw [List.mem_singleton.mp hr]
          show db.nextId < db.nextId + 2
          omega
      · intro b hb rid hrid
        exact lt_trans (h4 b hb rid hrid) (by omega)
      · rw [List.map_append, List.nodup_append]
        refine ⟨h5, List.nodup_singleton _, ?_⟩
        intro x hx hx2
        obtain ⟨r, hr, rfl⟩ := List.mem_map.mp hx
        simp only [List.map_cons, List.map_nil, List.mem_singleton] at hx2
        exact absurd hx2 (Nat.ne_of_lt (h3 r hr))
      · intro r hr
        rcases List.mem_append.mp hr with hr | hr
        · exact h6 r hr
        · rw [List.mem_singleton.mp hr]
          have hzero : bookedSum db.bookings db.nextId = 0 := by
            apply bookedSum_eq_zero
            intro b hb
            unfold seatContrib
            split_ifs with hc
            · exact absurd (h4 b hb db.nextId hc.1) (lt_irrefl _)
            · rfl
          refine ⟨by simp; omega, ?_⟩
          simp [hzero]
  · have heq : (createRide db a k p).2 = db := by
      unfold createRide
      simp [hv]
    rw [heq]
    exact h

/-- The offer transaction preserves the invariant: a fresh offer carries
validated seats and nothing else moves. -/
theorem Inv_offerTxn (db0 : DB) (a k trId rider : Nat) (p : OfferParams)
    (hv : validOfferParams p = true) (h : Inv db0) :
    Inv (offerTxn db0 a k trId rider p).2 := by
  unfold offerTxn
  split
  · exact h
  · split
    · split
      · exact h
      · exact h
    · obtain ⟨h1, h2, h3, h4, h5, h6⟩ := h
      unfold Inv
      dsimp only
      refine ⟨h1, ?_, ?_, ?_, h5, h6⟩
      · intro o ho
        rcases List.mem_append.mp ho with ho | ho
        · exact h2 o ho
        · rw [List.mem_singleton.mp ho]
          exact (of_decide_eq_true hv).1
      · intro r hr
        exact lt_trans (h3 r hr) (by omega)
      · intro b hb rid hrid
        exact lt_trans (h4 b hb rid hrid) (by omega)

/-- CreateOffer preserves the invariant on every path. -/
theorem Inv_createOffer (db : DB) (a k trId : Nat) (p : OfferParams) (h : Inv db) :
    Inv (createOffer db a k trId p).2 := by
  by_cases hv : validOfferParams p = true
  · have hguards : ∀ db0 : DB, Inv db0 → Inv (offerGuards db0 a k trId p).2 := by
      intro db0 h0
      unfold offerGuards
      split
      · exact h0
      · split_ifs
        · exact h0
        · exact h0
        · exact h0
        · exact Inv_offerTxn db0 a k trId _ p hv h0
    unfold createOffer
    rw [if_neg (by simp [hv])]
    split
    · split
      · exact h
      · exact hguards _ (Inv_mono rfl rfl rfl (le_refl _) h)
    · exact hguards _ h
  · have heq : (createOffer db a k trId p).2 = db := by
      unfold createOffer
      simp [hv]
    rw [heq]
    exact h

/-- Inversion of a 200 from AcceptOffer: the accepted offer exists and
the new snapshot is the cascade commit. -/
theorem acceptOffer_200_inv (db : DB) (actor oid : Nat)
    (hc : (acceptOffer db actor oid).1.code = 200) :
    ∃ o, findOffer db oid = some o ∧
      (acceptOffer db actor oid).2 =
        { db with
            offers := cancelLosers (setOfferStatus db.offers oid OfferStatus.ACCEPTED)
                        o.tripRequestId oid
            bookings := db.bookings ++
              [⟨db.nextId, none, some o.tripRequestId, some o.driverUserId,
                o.riderUserId, o.seatsOffered, some o.priceCents,
                BookingStatus.CONFIRMED⟩]
            tripRequests := setTRStatus db.tripRequests o.tripRequestId TRStatus.CLOSED
            nextId := db.nextId + 1 } := by
  unfold acceptOffer at hc ⊢
  cases hfo : findOffer db oid with
  | none => simp [hfo] at hc
  | some o =>
    cases htr : findTR db o.tripRequestId with
    | none => simp [hfo, htr] at hc
    | some tr =>
      simp only [hfo, htr] at hc ⊢
      refine ⟨o, rfl, ?_⟩
      split_ifs at hc ⊢ <;> first | rfl | simp_all

theorem Inv_acceptOffer (db : DB) (actor oid : Nat) (h : Inv db) :
    Inv (acceptOffer db actor oid).2 := by
  by_cases hc : (acceptOffer db actor oid).1.code = 200
  · obtain ⟨o, hfo, heq⟩ := acceptOffer_200_inv db actor oid hc
    rw [heq]
    unfold Inv
    dsimp only
    obtain ⟨h1, h2, h3, h4, h5, h6⟩ := h
    have hoMem : o ∈ db.offers := mem_of_find?_some hfo
    refine ⟨?_, ?_, ?_, ?_, h5, ?_⟩
    · intro b hb
      rcases List.mem_append.mp hb with hb | hb
      · exact h1 b hb
      · rw [List.mem_singleton.mp hb]
        exact h2 o hoMem
    · intro o2 ho2
      simp only [cancelLosers, setOfferStatus, List.map_map, List.mem_map] at ho2
      obtain ⟨o0, ho0, rfl⟩ := ho2
      show 0 < (loserUpd o.tripRequestId oid (offerStatusUpd oid OfferStatus.ACCEPTED o0)).seatsOffered
      rw [loserUpd_seats, offerStatusUpd_seats]
      exact h2 o0 ho0
    · intro r hr
      exact lt_trans (h3 r hr) (by omega)
    · intro b hb rid hrid
      rcases List.mem_append.mp hb with hb | hb
      · exact lt_trans (h4 b hb rid hrid) (by omega)
      · rw [List.mem_singleton.mp hb] at hrid
        cases hrid
    · intro r hr
      have hc0 : seatContrib r.id
          (⟨db.nextId, none, some o.tripRequestId, some o.driverUserId,
            o.riderUserId, o.seatsOffered, some o.priceCents,
            BookingStatus.CONFIRMED⟩ : Booking) = 0 := by
        unfold seatContrib
        simp
      refine ⟨(h6 r hr).1, ?_⟩
      rw [bookedSum_append, hc0]
      have := (h6 r hr).2
      omega
  · rw [acceptOffer_rollback db actor oid hc]
    exact h

theorem Inv_cancelOffer (db : DB) (actor oid : Nat) (h : Inv db) :
    Inv (cancelOffer db actor oid).2 := by
  unfold cancelOffer
  cases hfo : findOffer db oid with
  | none => exact h
  | some o =>
    dsimp only
    obtain ⟨h1, h2, h3, h4, h5, h6⟩ := h
    split_ifs with hAuth hCanc hDrv hAcc
    · exact ⟨h1, h2, h3, h4, h5, h6⟩
    · exact ⟨h1, h2, h3, h4, h5, h6⟩
    · exact ⟨h1, h2, h3, h4, h5, h6⟩
    · -- ACCEPTED cascade
      unfold Inv
      dsimp only
      refine ⟨?_, ?_, h3, ?_, h5, ?_⟩
      · intro b hb
        simp only [cancelBookingsOfTR, List.mem_map] at hb
        obtain ⟨b0, hb0, rfl⟩ := hb
        show 0 < (trBookingUpd o.tripRequestId b0).seatsBooked
        rw [trBookingUpd_seats]
        exact h1 b0 hb0
      · intro o2 ho2
        simp only [setOfferStatus, List.mem_map] at ho2
        obtain ⟨o0, ho0, rfl⟩ := ho2
        show 0 < (offerStatusUpd oid OfferStatus.CANCELLED o0).seatsOffered
        rw [offerStatusUpd_seats]
        exact h2 o0 ho0
      · intro b hb rid hrid
        simp only [cancelBookingsOfTR, List.mem_map] at hb
        obtain ⟨b0, hb0, rfl⟩ := hb
        rw [trBookingUpd_rideId] at hrid
        exact h4 b0 hb0 rid hrid
      · intro r hr
        refine ⟨(h6 r hr).1, ?_⟩
        have hle : bookedSum (cancelBookingsOfTR db.bookings o.tripRequestId) r.id ≤
            bookedSum db.bookings r.id :=
          bookedSum_map_le (fun b hb => trBookingUpd_contrib_le _ _ _ (h1 b hb))
        have := (h6 r hr).2
        omega
    · -- PENDING: only the offer row changes
      unfold Inv
      dsimp only
      refine ⟨h1, ?_, h3, h4, h5, h6⟩
      intro o2 ho2
      simp only [setOfferStatus, List.mem_map] at ho2
      obtain ⟨o0, ho0, rfl⟩ := ho2
      show 0 < (offerStatusUpd oid OfferStatus.CANCELLED o0).seatsOffered
      rw [offerStatusUpd_seats]
      exact h2 o0 ho0

theorem decrUpd_total (rid : Nat) (seats now : Int) (r : Ride) :
    (decrUpd rid seats now r).seatsTotal = r.seatsTotal := by
  unfold decrUpd
  split <;> rfl

theorem Inv_bookingTxn (db : DB) (a k rid : Nat) (s n : Int)
    (hs : ¬ (s < 1 ∨ 8 < s)) (h : Inv db) :
    Inv (bookingTxn db a k rid s n).2 := by
  unfold bookingTxn
  by_cases h1 : (db.rides.filter (fun r => rideBookCond r rid s n)).length = 0
  · rw [if_pos h1]
    split
    · exact h
    · split_ifs <;> exact h
  · rw [if_neg h1]
    cases h2 : confirmedBookingExists db.bookings rid a with
    | true =>
      rw [if_pos rfl]
      exact h
    | false =>
      simp only [Bool.false_eq_true, if_false]
      cases hh : hasIdem db a k EntityType.BOOKING with
      | true =>
        rw [if_pos rfl]
        split
        · exact h
        · exact h
      | false =>
        simp only [Bool.false_eq_true, if_false]
        have hne : db.rides.filter (fun r => rideBookCond r rid s n) ≠ [] := by
          intro hcc
          exact h1 (by rw [hcc]; rfl)
        obtain ⟨r1, hr1⟩ := List.exists_mem_of_ne_nil _ hne
        have hr1mem : r1 ∈ db.rides := (List.mem_filter.mp hr1).1
        have hr1c : rideBookCond r1 rid s n = true := (List.mem_filter.mp hr1).2
        have hid1 : r1.id = rid := (of_decide_eq_true hr1c).1
        obtain ⟨hA, hB, hC, hD, hE, hF⟩ := h
        have hridlt : rid < db.nextId := hid1 ▸ hC r1 hr1mem
        unfold Inv
        dsimp only
        refine ⟨?_, hB, ?_, ?_, ?_, ?_⟩
        · intro b hb
          rcases List.mem_append.mp hb with hb | hb
          · exact hA b hb
          · rw [List.mem_singleton.mp hb]
            show (0 : Int) < s
            omega
        · intro r hr
          simp only [decrementRides, List.mem_map] at hr
          obtain ⟨r0, hr0, rfl⟩ := hr
          rw [decrUpd_id]
          exact lt_trans (hC r0 hr0) (by omega)
        · intro b hb rid2 hrid2
          rcases List.mem_append.mp hb with hb | hb
          · exact lt_trans (hD b hb rid2 hrid2) (by omega)
          · rw [List.mem_singleton.mp hb] at hrid2
            cases hrid2
            exact lt_trans hridlt (by omega)
        · show ((decrementRides db.rides rid s n).map Ride.id).Nodup
          unfold decrementRides
          rw [map_ids_pres (decrUpd_id rid s n)]
          exact hE
        · intro r' hr'
          simp only [decrementRides, List.mem_map] at hr'
          obtain ⟨r, hrm, rfl⟩ := hr'
          have hFr := hF r hrm
          unfold decrUpd
          by_cases hcnd : rideBookCond r rid s n = true
          · rw [if_pos hcnd]
            obtain ⟨hidr, _, _, hseats⟩ := of_decide_eq_true hcnd
            have hcb : seatContrib r.id
                (⟨db.nextId, some rid, none, none, a, s, none,
                  BookingStatus.CONFIRMED⟩ : Booking) = s := by
              unfold seatContrib
              rw [if_pos ⟨by rw [hidr], rfl⟩]
            dsimp only
            rw [bookedSum_append, hcb]
            constructor
            · omega
            · omega
          · rw [if_neg hcnd]
            by_cases hidr : r.id = rid
            · exfalso
              have : r = r1 := List.inj_on_of_nodup_map hE hrm hr1mem (by rw [hidr, hid1])
              rw [this] at hcnd
              exact hcnd hr1c
            · have hcb : seatContrib r.id
                  (⟨db.nextId, some rid, none, none, a, s, none,
                    BookingStatus.CONFIRMED⟩ : Booking) = 0 := by
                unfold seatContrib
                rw [if_neg]
                intro hcc
                exact hidr (by injection hcc.1 with hcc2; rw [hcc2])
              rw [bookedSum_append, hcb]
              constructor
              · exact hFr.1
              · have := hFr.2
                omega

theorem Inv_createBooking (db : DB) (a k rid : Nat) (s n : Int) (h : Inv db) :
    Inv (createBooking db a k rid s n).2 := by
  by_cases hs : s < 1 ∨ 8 < s
  · have heq : (createBooking db a k rid s n).2 = db := by
      unfold createBooking
      simp [hs]
    rw [heq]
    exact h
  · unfold createBooking
    rw [if_neg hs]
    split
    · split
      · exact h
      · exact Inv_bookingTxn db a k rid s n hs h
    · exact Inv_bookingTxn db a k rid s n hs h

theorem Inv_cancelBooking (db : DB) (actor bid : Nat) (h : Inv db) :
    Inv (cancelBooking db actor bid).2 := by
  unfold cancelBooking
  cases hfb : findBooking db bid with
  | none => exact h
  | some b =>
    dsimp only
    split_ifs with hAuth hCanc
    · exact h
    · exact h
    · cases hrid : b.rideId with
      | none => exact h
      | some rid =>
        dsimp only
        cases hfr : findRide db rid with
        | none => exact h
        | some r0 =>
          have hbMem : b ∈ db.bookings := mem_of_find?_some hfb
          have hbid : b.id = bid := by simpa using List.find?_some hfb
          have hstat : b.status = BookingStatus.CONFIRMED := by
            cases hbs : b.status with
            | CONFIRMED => rfl
            | CANCELLED => exact absurd hbs hCanc
          obtain ⟨hA, hB, hC, hD, hE, hF⟩ := h
          unfold Inv
          dsimp only
          refine ⟨?_, hB, ?_, ?_, ?_, ?_⟩
          · intro b2 hb2
            simp only [setBookingStatus, List.mem_map] at hb2
            obtain ⟨b0, hb0, rfl⟩ := hb2
            show 0 < (bookingStatusUpd bid BookingStatus.CANCELLED b0).seatsBooked
            rw [bookingStatusUpd_seats]
            exact hA b0 hb0
          · intro r hr
            simp only [incrRideSeats, List.mem_map] at hr
            obtain ⟨r2, hr2, rfl⟩ := hr
            rw [incrUpd_id]
            exact hC r2 hr2
          · intro b2 hb2 rid2 hrid2
            simp only [setBookingStatus, List.mem_map] at hb2
            obtain ⟨b0, hb0, rfl⟩ := hb2
            rw [bookingStatusUpd_rideId] at hrid2
            exact hD b0 hb0 rid2 hrid2
          · show ((incrRideSeats db.rides rid b.seatsBooked).map Ride.id).Nodup
            unfold incrRideSeats
            rw [map_ids_pres (incrUpd_id rid b.seatsBooked)]
            exact hE
          · intro r' hr'
            simp only [incrRideSeats, List.mem_map] at hr'
            obtain ⟨r, hrm, rfl⟩ := hr'
            have hFr := hF r hrm
            have hbpos := hA b hbMem
            unfold incrUpd
            by_cases hjr : r.id = rid
            · rw [if_pos hjr]
              dsimp only
              have hgb : seatContrib r.id b = b.seatsBooked := by
                unfold seatContrib
                rw [if_pos ⟨by rw [hrid, hjr], hstat⟩]
              have hsum : bookedSum (setBookingStatus db.bookings bid
                  BookingStatus.CANCELLED) r.id ≤
                  bookedSum db.bookings r.id - b.seatsBooked := by
                unfold setBookingStatus
                rw [bookedSum_map]
                have := @sum_cancel_le db.bookings (seatContrib r.id)
                  (fun b2 => seatContrib r.id
                    (bookingStatusUpd bid BookingStatus.CANCELLED b2))
                  b hbMem
                  (by simp [seatContrib, bookingStatusUpd, hbid])
                  (fun b2 hb2 => cancelUpd_contrib_le bid r.id b2 (hA b2 hb2))
                  (fun b2 hb2 => seatContrib_nonneg (hA b2 hb2))
                rw [hgb] at this
                exact this
              constructor
              · omega
              · have := hFr.2
                omega
            · rw [if_neg hjr]
              have hsum : bookedSum (setBookingStatus db.bookings bid
                  BookingStatus.CANCELLED) r.id ≤ bookedSum db.bookings r.id :=
                bookedSum_map_le (fun b2 hb2 => cancelUpd_contrib_le bid r.id b2 (hA b2 hb2))
              exact ⟨hFr.1, by have := hFr.2; omega⟩

theorem Inv_applyOp (db : DB) (op : Op) (h : Inv db) : Inv (applyOp db op) := by
  cases op with
  | createRide a k p => exact Inv_createRide db a k p h
  | createTripRequest a k p => exact Inv_createTripRequest db a k p h
  | createOffer a k trId p => exact Inv_createOffer db a k trId p h
  | acceptOffer a oid => exact Inv_acceptOffer db a oid h
  | cancelOffer a oid => exact Inv_cancelOffer db a oid h
  | createBooking a k rid s n => exact Inv_createBooking db a k rid s n h
  | cancelBooking a bid => exact Inv_cancelBooking db a bid h

theorem Inv_applyOps (db : DB) (ops : List Op) (h : Inv db) : Inv (applyOps db ops) := by
  induction ops generalizing db with
  | nil => exact h
  | cons op ops ih => exact ih (applyOp db op) (Inv_applyOp db op h)

theorem Inv_bounds {db : DB} (h : Inv db) :
    ∀ r ∈ db.rides, 0 ≤ r.seatsAvailable ∧ r.seatsAvailable ≤ r.seatsTotal := by
  intro r hr
  obtain ⟨h1, _, _, _, _, h6⟩ := h
  have hnn := @bookedSum_nonneg db.bookings r.id h1
  have := h6 r hr
  exact ⟨this.1, by omega⟩

-- ── C2 ─────────────────────────────────────────────────────────────────

/-- C2: from any snapshot satisfying the well-formedness invariant,
after any sequence of operations (ride/trip-request/offer/booking
creation, offer acceptance, offer and booking cancellation) every ride
satisfies `0 ≤ seatsAvailable ≤ seatsTotal`; and a ride created by a
successful CreateRide starts with `seatsAvailable = seatsTotal`. -/
theorem c2_seats_invariant :
    (∀ db ops, Inv db → ∀ r ∈ (applyOps db ops).rides,
       0 ≤ r.seatsAvailable ∧ r.seatsAvailable ≤ r.seatsTotal) ∧
    (∀ db a k p r, (createRide db a k p).1.code = 201 →
       (createRide db a k p).1.body = some r →
       r.seatsAvailable = r.seatsTotal) := by
  constructor
  · intro db ops h
    exact Inv_bounds (Inv_applyOps db ops h)
  · intro db a k p r hcode hbody
    by_cases hv : validRideParams p = true
    · cases hf : findIdem db a k EntityType.RIDE with
      | some krow =>
        exfalso
        unfold createRide at hcode
        simp [hv, hf] at hcode
      | none =>
        have hhas : hasIdem db a k EntityType.RIDE = false := by
          simp [hasIdem, hf]
        have heq : (createRide db a k p).1.body =
            some ⟨db.nextId, a, p.earliestDepartAt, p.latestDepartAt,
                  p.priceCents, p.seatsTotal, p.seatsTotal, RideStatus.ACTIVE⟩ := by
          unfold createRide rideCommit
          simp [hv, hf, hhas]
        rw [heq] at hbody
        cases hbody
        rfl
    · exfalso
      unfold createRide at hcode
      simp [hv] at hcode

/-- Witness for C2: a concrete snapshot with one fresh 4-seat ride
satisfies the invariant, and after booking two of its seats the bounds
still hold on the updated ride row. -/
theorem c2_seats_invariant_witness :
    (0 : Int) ≤ (⟨1, 30, 0, 10, 100, 4, 2, RideStatus.ACTIVE⟩ : Ride).seatsAvailable ∧
    (⟨1, 30, 0, 10, 100, 4, 2, RideStatus.ACTIVE⟩ : Ride).seatsAvailable ≤
      (⟨1, 30, 0, 10, 100, 4, 2, RideStatus.ACTIVE⟩ : Ride).seatsTotal :=
  c2_seats_invariant.1 ⟨[⟨1, 30, 0, 10, 100, 4, 4, RideStatus.ACTIVE⟩],
      [], [], [], [], 2⟩
    [Op.createBooking 10 5 1 2 3] (by decide)
    ⟨1, 30, 0, 10, 100, 4, 2, RideStatus.ACTIVE⟩ (by decide)

end Desti
